import Mathlib

/-!
Verification of the servicebot dialogue-orchestration core (`src/server.mjs`).

The JavaScript source is shallowly embedded:
* the OpenAI backend is abstracted as a function `attempts : Nat → GatewayStep`
  giving the outcome (success or thrown error) of the i-th attempt of one
  wrapped call;
* the in-memory `sessions` `Map` becomes an association list preserving
  insertion order;
* thrown JS errors become `Except` values carrying the error's `status` field
  (`Option Nat`, since the field may be absent);
* the regular expressions of the analyzer are modelled character-by-character
  over `List Char`, with JavaScript's `i` flag rendered as comparison of
  `Char.toLower` images (the tags and the marker are ASCII, where Lean's
  `Char.toLower` agrees with JavaScript's `toLowerCase`).
-/

namespace ServiceBot

/-- ASCII lower-casing used to model the `i` regex flag and `toLowerCase()`. -/
def lc (c : Char) : Char := c.toLower

/-- The whitespace class of JavaScript `\s` / `String.prototype.trim`,
restricted to its ASCII part (space, tab, newline, carriage return,
vertical tab, form feed). -/
def isJsWs (c : Char) : Bool :=
  c == ' ' || c == '\t' || c == '\n' || c == '\r' || c == '\x0b' || c == '\x0c'

/-- Test whether `pat` matches a prefix of `s` case-insensitively. -/
def ciStarts : List Char → List Char → Bool
  | [], _ => true
  | _ :: _, [] => false
  | p :: ps, c :: cs => (lc p == lc c) && ciStarts ps cs

/-- First case-insensitive occurrence of `pat` in `s`: returns
`(text before the occurrence, text after the occurrence)`, or `none` when
`pat` occurs nowhere.  This is the leftmost-match search of a JavaScript
regex whose pattern is the literal `pat` with the `i` flag. -/
def ciSplit (pat : List Char) : List Char → Option (List Char × List Char)
  | [] => if ciStarts pat [] then some ([], []) else none
  | c :: cs =>
      if ciStarts pat (c :: cs) then some ([], (c :: cs).drop pat.length)
      else
        match ciSplit pat cs with
        | some (pre, post) => some (c :: pre, post)
        | none => none

/-- Whether `pat` occurs in `s`, case-insensitively (JS `includes` after lowering). -/
def ciContains (pat s : List Char) : Bool := (ciSplit pat s).isSome

/-- Semantics of the JS regex `openT([\s\S]*?)closeT` with the `i` flag under
`text.match`: the leftmost match takes the first occurrence of `openT` that
has an occurrence of `closeT` after it, with the non-greedy body ending at the
first such `closeT`; the capture (the body) is returned.  When the first
occurrence of `openT` has no `closeT` after it, no later occurrence of `openT`
can have one either (any close tag after a later open tag also lies after the
earlier one), so the whole match fails — hence searching only from the first
`openT` is exactly the regex behaviour. -/
def extractInner (openT closeT s : List Char) : Option (List Char) :=
  match ciSplit openT s with
  | none => none
  | some (_, afterOpen) =>
      match ciSplit closeT afterOpen with
      | some (inner, _) => some inner
      | none => none

/-- JS `String.prototype.trim` on `List Char` (ASCII whitespace, see `isJsWs`). -/
def jsTrim (s : List Char) : List Char :=
  ((s.dropWhile isJsWs).reverse.dropWhile isJsWs).reverse

/-- JS `String.prototype.trim` on `String`. -/
def jsTrimStr (s : String) : String := ⟨jsTrim s.data⟩

/-- JS `a || b` for a possibly-absent string `a`: both `undefined` and the
empty string are falsy, so they select the fallback `b`. -/
def jsOrElse (s : Option String) (fallback : String) : String :=
  match s with
  | none => fallback
  | some t => if t = "" then fallback else t

/-!  ## The analyzer (`extractTicketFields`, `isOrderCompleted`,
`stripOrderCompletedTag`, `stripTicketBlock`)  -/

/-- The inner `get` of `extractTicketFields`:
`text.match(new RegExp("<tag>([\\s\\S]*?)</tag>", "i"))`, trimmed. -/
def getTagField (tag : String) (text : String) : Option String :=
  (extractInner ("<" ++ tag ++ ">").data ("</" ++ tag ++ ">").data text.data).map
    fun inner => ⟨jsTrim inner⟩

/-- The structured ticket record produced by `extractTicketFields`. -/
structure TicketFields where
  summary : Option String
  description : Option String
  category : Option String
deriving DecidableEq, Repr

/-- Source `extractTicketFields(text)`: first case-insensitive
`<su>…</su>`, `<de>…</de>`, `<ca>…</ca>` pair each, inner text trimmed,
`null` when the tag pair is absent. -/
def extractTicketFields (text : String) : TicketFields :=
  { summary := getTagField "su" text
    description := getTagField "de" text
    category := getTagField "ca" text }

/-- The terminal marker, lower-cased as in
`reply.toLowerCase().includes("[[order_completed]]")`. -/
def orderMarker : List Char := "[[order_completed]]".data

/-- Source `isOrderCompleted(reply)`:
`reply.toLowerCase().includes("[[order_completed]]")`.  Lower-casing the text
and searching the lower-case literal is the same as a case-insensitive
search, which `ciContains` performs. -/
def isOrderCompleted (reply : String) : Bool := ciContains orderMarker reply.data

/-- Shorthand for `s.dropWhile isJsWs`, the action of a greedy `\s*`. -/
def dropWs (s : List Char) : List Char := s.dropWhile isJsWs

/-- One pass of the global replace
`reply.replace(/\s*\[\[ORDER_COMPLETED\]\]\s*/gi, "")`, scanning start
positions left to right.  At a given start position the regex matches iff
after the maximal whitespace run the marker follows (the marker starts with
`[`, which is not whitespace, so the greedy `\s*` never needs to backtrack);
the trailing `\s*` then consumes the maximal whitespace run after the marker,
and scanning resumes at the end of the match.  `fuel` only forces structural
termination: every step consumes at least one character, so `fuel = s.length`
(as used in `stripOrderCompletedTag`) never runs out. -/
def stripMarkerGo : Nat → List Char → List Char
  | 0, s => s
  | _ + 1, [] => []
  | fuel + 1, c :: cs =>
      if ciStarts orderMarker (dropWs (c :: cs)) then
        stripMarkerGo fuel (dropWs ((dropWs (c :: cs)).drop orderMarker.length))
      else c :: stripMarkerGo fuel cs

/-- Source `stripOrderCompletedTag(reply)`:
`reply.replace(/\s*\[\[ORDER_COMPLETED\]\]\s*/gi, "").trim()`. -/
def stripOrderCompletedTag (reply : String) : String :=
  ⟨jsTrim (stripMarkerGo reply.data.length reply.data)⟩

/-- Source `stripTicketBlock(reply)`:
`reply.replace(/<ticket>[\s\S]*?<\/ticket>/i, "").trim()` — the first
complete `<ticket>…</ticket>` block (non-greedy, case-insensitive) is
removed if present; see `extractInner` for why first-open/first-close-after
is the exact regex semantics. -/
def stripTicketBlock (reply : String) : String :=
  match ciSplit "<ticket>".data reply.data with
  | none => ⟨jsTrim reply.data⟩
  | some (pre, afterOpen) =>
      match ciSplit "</ticket>".data afterOpen with
      | some (_, afterClose) => ⟨jsTrim (pre ++ afterClose)⟩
      | none => ⟨jsTrim reply.data⟩

/-!  ## The backend call gateway (`callOpenAIWithRetry`)  -/

/-- The part of an OpenAI response the core inspects: `response.output_text`
(possibly absent). -/
structure Response where
  output_text : Option String
deriving DecidableEq, Repr

/-- Outcome of one attempt of `client.responses.create(payload)`: either a
response, or a thrown error whose `status` field is `status` (absent
statuses modelled as `none`). -/
inductive GatewayStep where
  | succ (resp : Response)
  | fail (status : Option Nat)
deriving DecidableEq, Repr

/-- Result of `callOpenAIWithRetry`, together with the list of back-off
delays (in ms) that were awaited.  `undef` is the JavaScript `undefined`
returned when the `for` loop body never runs (`retries = 0`); with any
positive retry budget the loop always returns or throws. -/
inductive RetryOutcome where
  | ok (resp : Response) (delays : List Nat)
  | err (status : Option Nat) (delays : List Nat)
  | undef (delays : List Nat)
deriving DecidableEq, Repr

/-- The retry loop of `callOpenAIWithRetry`, at attempt index `i` with
`fuel = retries - i` remaining iterations and `acc` the delays awaited so
far.  The source condition `err.status === 429 && i < retries - 1` is
`status = some 429 ∧ fuel ≠ 1`, i.e. `fuel' ≠ 0` after peeling one
iteration; the delay before the next attempt is `(i + 1) * 1000` ms. -/
def runRetry (attempts : Nat → GatewayStep) : Nat → Nat → List Nat → RetryOutcome
  | 0, _, acc => .undef acc
  | fuel + 1, i, acc =>
      match attempts i with
      | .succ r => .ok r acc
      | .fail st =>
          if st = some 429 ∧ fuel ≠ 0 then
            runRetry attempts fuel (i + 1) (acc ++ [(i + 1) * 1000])
          else .err st acc

/-- Source `callOpenAIWithRetry(payload, retries)`: run up to `retries` attempts,
retrying only on status-429 failures that are not the final allowed
attempt. -/
def callOpenAIWithRetry (attempts : Nat → GatewayStep) (retries : Nat) : RetryOutcome :=
  runRetry attempts retries 0 []

/-!  ## Auxiliary definitions for the analyzer proofs  -/

/-- Predicate `noStartIn pat A B = true` : at no position inside `A` (with
`B` following) does a case-insensitive match of `pat` begin.  For a concrete
`A` and a pattern that fails within the concrete part, this evaluates to
`true` by `rfl` even with `B` symbolic. -/
def noStartIn (pat : List Char) : List Char → List Char → Bool
  | [], _ => true
  | c :: cs, B => !(ciStarts pat (c :: (cs ++ B))) && noStartIn pat cs B

/-- The terminal marker as the model emits it (upper case). -/
def markerU : List Char := "[[ORDER_COMPLETED]]".data

def suOpenL : List Char := "<su>".data
def suCloseL : List Char := "</su>".data
def deOpenL : List Char := "<de>".data
def deCloseL : List Char := "</de>".data
def caOpenL : List Char := "<ca>".data
def caCloseL : List Char := "</ca>".data
def tkOpenL : List Char := "<ticket>".data
def tkCloseL : List Char := "</ticket>".data

/-- The character data of a complete ticket block (no marker), grouped to
the right. -/
def blockNoMarker (X Y Z : List Char) : List Char :=
  tkOpenL ++ (suOpenL ++ (X ++ (suCloseL ++ (deOpenL ++ (Y ++ (deCloseL ++
    (caOpenL ++ (Z ++ (caCloseL ++ tkCloseL)))))))))

/-- The well-formed terminal reply of the C3 scenario: leading text `P`,
then a complete `<ticket>` block with field bodies `X`, `Y`, `Z`,
immediately followed by the terminal marker. -/
def ticketReply (P X Y Z : String) : String :=
  P ++ "<ticket>" ++ "<su>" ++ X ++ "</su>" ++ "<de>" ++ Y ++ "</de>" ++
    "<ca>" ++ Z ++ "</ca>" ++ "</ticket>" ++ "[[ORDER_COMPLETED]]"

/-- Text that contains no tag-opening `<` and no marker-opening `[`
(up to case), so it can interact with neither the analyzer's regexes nor
the marker search. -/
abbrev TagFree (s : String) : Prop := ∀ c ∈ s.data, lc c ≠ '<' ∧ lc c ≠ '['

/-!  ## Sessions and the turn pipeline  -/

/-- One conversation message: a role (`"system"`, `"user"` or
`"assistant"`) and its text content. -/
structure Message where
  role : String
  content : String
deriving DecidableEq, Repr

/-- The fixed system instruction (the `systemPrompt` template literal of the
source, between its backticks). -/
def systemPrompt : String :=
  "\nYou are KunAI, an IT support assistant.\n\nGOAL:\n- Help users with IT issues, requests, and feedback.\n- Collect all info needed to open an IT support ticket.\n\nSTYLE:\n- Reply in the user\x27s language.\n- Short, friendly, slightly sarcastic (never rude).\n\nFLOW:\n1) Greet the user. Ask what issue or request they have.\n2) Ask for the details you need:\n   - What is happening?\n   - Where? (system/app/device/location/company)\n   - Since when / how often?\n   - Errors, screenshots, steps to reproduce (if relevant)\n3) Collect contact info:\n   - Name\n   - Location/company\n   - Optional phone\n4) Summarize everything, confirm with the user, and ask if they want to add anything.\n\nWHEN READY TO CREATE A TICKET:\n1) Tell the user you are submitting their request.\n2) Then output a machine-readable block (tags in English only):\n\n<ticket>\n<su>\x7bshort summary in user\x27s language\x7d</su>\n<de>\x7bfull description in user\x27s language\x7d</de>\n<ca>\x7bcategory in English: Hardware, Software, Access, Network, Feedback, etc.\x7d</ca>\n</ticket>\n\n3) After </ticket>, end with: [[ORDER_COMPLETED]]\nUse [[ORDER_COMPLETED]] ONLY when a ticket is ready.\n\nIf the user only needs general help, answer normally without a ticket.\n"

/-- The in-memory `sessions` `Map`, as an association list in insertion
order (keys unique by construction of the operations below). -/
abbrev SessionMap : Type := List (String × List Message)

/-- Lookup `sessions.get(sid)`. -/
def getSession : SessionMap → String → Option (List Message)
  | [], _ => none
  | (k, v) :: rest, sid => if k = sid then some v else getSession rest sid

/-- Update `sessions.set(sid, v)`: replace in place, or append a new entry. -/
def setSession : SessionMap → String → List Message → SessionMap
  | [], sid, v => [(sid, v)]
  | (k, w) :: rest, sid, v =>
      if k = sid then (k, v) :: rest else (k, w) :: setSession rest sid v

/-- Deletion `sessions.delete(sid)` (the `/api/reset` endpoint); a no-op when the
key is absent. -/
def deleteSession : SessionMap → String → SessionMap
  | [], _ => []
  | (k, w) :: rest, sid => if k = sid then rest else (k, w) :: deleteSession rest sid

/-- Source `getContextForSession(sessionId)`: lazily create the session with the
single system message, then return (possibly updated map, context). -/
def getContextForSession (m : SessionMap) (sid : String) :
    SessionMap × List Message :=
  match getSession m sid with
  | some ctx => (m, ctx)
  | none =>
      (setSession m sid [Message.mk "system" systemPrompt],
       [Message.mk "system" systemPrompt])

/-- Threshold `MAX_HISTORY_MESSAGES_BEFORE_SUMMARY` of the source. -/
def MAX_HISTORY_MESSAGES_BEFORE_SUMMARY : Nat := 20

/-- Bound `SUMMARY_MAX_OUTPUT_TOKENS` of the source (part of the request
payload; the payload itself is abstracted into the attempts function). -/
def SUMMARY_MAX_OUTPUT_TOKENS : Nat := 200

/-- The fallback summary line of `summarizeContextIfNeeded`. -/
def summaryFallbackText : String :=
  "Summary of the previous conversation so far (details omitted)."

/-- A thrown JS error is modelled by its `status` field (`none` when the
field is absent). -/
abbrev JsError : Type := Option Nat

/-- Source `summarizeContextIfNeeded(sessionId)`: a no-op when the session is
absent or its non-system message count (`context.slice(1)`) is at most the
threshold; otherwise one gateway call (retry budget 3) whose success
replaces the session by `[context[0], summary message]` and whose failure
propagates, leaving the map untouched.  The summary content is the fixed
prefix, a newline, and `summaryResponse.output_text || fallback`.  The
`undef` branch cannot occur with budget 3 (the JS would crash dereferencing
`undefined`); it is modelled as a propagated error. -/
def summarizeContextIfNeeded (attempts : Nat → GatewayStep)
    (m : SessionMap) (sid : String) : SessionMap × Except JsError Unit :=
  match getSession m sid with
  | none => (m, .ok ())
  | some context =>
      if (context.drop 1).length ≤ MAX_HISTORY_MESSAGES_BEFORE_SUMMARY then
        (m, .ok ())
      else
        match callOpenAIWithRetry attempts 3 with
        | .ok resp _ =>
            match context with
            | c0 :: _ =>
                (setSession m sid
                  [c0, Message.mk "assistant"
                    ("Conversation summary so far:\n" ++
                      jsOrElse resp.output_text summaryFallbackText)],
                 .ok ())
            | [] => (m, .ok ())
        | .err st _ => (m, .error st)
        | .undef _ => (m, .error none)

/-- What `handleChatMessage` returns to its caller. -/
structure TurnResult where
  reply : String
  orderCompleted : Bool
  jiraIssueKey : Option String
deriving DecidableEq, Repr

/-- Defaulting `sessionId || "default-session"`: `undefined` and the empty string are
falsy. -/
def resolveSessionId (sessionId : Option String) : String :=
  match sessionId with
  | some s => if s = "" then "default-session" else s
  | none => "default-session"

/-- Source `handleChatMessage(message, sessionId)`.  The two backend calls it can
make (the summarization call inside `summarizeContextIfNeeded` and the main
chat call) are driven by `summaryAttempts` and `chatAttempts`; the external
Jira submission is abstracted as `jiraOutcome` (its key on success).  The
email send and the Jira request payload (built from `extractTicketFields`)
are external side effects with no influence on state or result: a failed
email is swallowed, a failed Jira call only suppresses the session reset
and leaves `jiraIssueKey` null.  As in the source, the error of a failed
gateway call propagates after the user message was appended and before any
assistant message is. -/
def handleChatMessage (summaryAttempts chatAttempts : Nat → GatewayStep)
    (jiraOutcome : Except Unit String) (m : SessionMap)
    (message : String) (sessionId : Option String) :
    SessionMap × Except JsError TurnResult :=
  match summarizeContextIfNeeded summaryAttempts
      (getContextForSession m (resolveSessionId sessionId)).1
      (resolveSessionId sessionId) with
  | (m2, .error e) => (m2, .error e)
  | (m2, .ok _) =>
      match getContextForSession m2 (resolveSessionId sessionId) with
      | (m2x, context) =>
          let sid := resolveSessionId sessionId
          let ctx2 := context ++ [Message.mk "user" message]
          let m3 := setSession m2x sid ctx2
          match callOpenAIWithRetry chatAttempts 3 with
          | .err st _ => (m3, .error st)
          | .undef _ => (m3, .error none)
          | .ok resp _ =>
              let assistantText :=
                jsOrElse resp.output_text "Sorry, I had trouble answering that."
              let cleanedReply :=
                stripTicketBlock (stripOrderCompletedTag assistantText)
              let m4 := setSession m3 sid
                (ctx2 ++ [Message.mk "assistant" cleanedReply])
              if isOrderCompleted assistantText then
                match jiraOutcome with
                | .ok key =>
                    (setSession m4 sid [Message.mk "system" systemPrompt],
                     .ok ⟨cleanedReply, true, some key⟩)
                | .error _ => (m4, .ok ⟨cleanedReply, true, none⟩)
              else (m4, .ok ⟨cleanedReply, false, none⟩)

/-- The session-store invariant of the spec: every stored session is
non-empty and begins with the fixed system instruction (stated over the
entries of the map, which covers everything `getSession` can return). -/
def SessionsWF (m : SessionMap) : Prop :=
  ∀ p ∈ m, (p.2).head? = some (Message.mk "system" systemPrompt)

/-!  ## Gateway lemmas  -/

theorem runRetry_skip (attempts : Nat → GatewayStep) :
    ∀ (k fuel i : Nat) (acc : List Nat), k < fuel →
      (∀ j, j < k → attempts (i + j) = .fail (some 429)) →
      runRetry attempts fuel i acc =
        runRetry attempts (fuel - k) (i + k)
          (acc ++ (List.range k).map (fun j => (i + j + 1) * 1000)) := by
  intro k
  induction k with
  | zero => intro fuel i acc _ _; simp
  | succ k ih =>
      intro fuel i acc hk hfail
      obtain ⟨f, rfl⟩ : ∃ f, fuel = f + 1 :=
        ⟨fuel - 1, by omega⟩
      have h0 : attempts i = .fail (some 429) := by
        have := hfail 0 (Nat.succ_pos k); simpa using this
      have hf : f ≠ 0 := by omega
      have hstep : runRetry attempts (f + 1) i acc =
          runRetry attempts f (i + 1) (acc ++ [(i + 1) * 1000]) := by
        rw [runRetry, h0]
        simp [hf]
      rw [hstep]
      have ih' := ih f (i + 1) (acc ++ [(i + 1) * 1000]) (by omega)
        (by
          intro j hj
          have := hfail (j + 1) (by omega)
          simpa [Nat.add_assoc, Nat.add_comm 1 j] using this)
      rw [ih']
      have hmap : (List.range (k + 1)).map (fun j => (i + j + 1) * 1000) =
          (i + 1) * 1000 :: (List.range k).map (fun j => (i + 1 + j + 1) * 1000) := by
        rw [List.range_succ_eq_map, List.map_cons, List.map_map]
        refine congrArg₂ _ (by norm_num) ?_
        exact List.map_congr_left fun j _ => by simp [Function.comp]; ring
      rw [show f + 1 - (k + 1) = f - k from by omega,
        show i + (k + 1) = i + 1 + k from by omega, hmap]
      simp [List.append_assoc]

theorem callOpenAIWithRetry_after_rl (attempts : Nat → GatewayStep)
    (retries k : Nat) (hk : k < retries)
    (hfail : ∀ j, j < k → attempts j = .fail (some 429)) :
    callOpenAIWithRetry attempts retries =
      runRetry attempts (retries - k) k
        ((List.range k).map (fun j => (j + 1) * 1000)) := by
  have h := runRetry_skip attempts k retries 0 [] hk (by simpa using hfail)
  simpa using h

/-- C1: for a call with retry budget `retries`, after `k` rate-limited
attempts (`k < retries`) the gateway has slept exactly the strictly
increasing delays `1000, 2000, …, k*1000` ms; a success on attempt `k`
returns that response; a non-rate-limit failure on attempt `k` propagates
immediately; a rate-limit failure on the final allowed attempt
(`k = retries - 1`) propagates immediately as well. -/
theorem C1_retry_policy (attempts : Nat → GatewayStep) (retries k : Nat)
    (hk : k < retries)
    (hfail : ∀ j, j < k → attempts j = .fail (some 429)) :
    (∀ resp, attempts k = .succ resp →
        callOpenAIWithRetry attempts retries =
          .ok resp ((List.range k).map (fun j => (j + 1) * 1000)))
    ∧ (∀ st, attempts k = .fail st → st ≠ some 429 →
        callOpenAIWithRetry attempts retries =
          .err st ((List.range k).map (fun j => (j + 1) * 1000)))
    ∧ (attempts k = .fail (some 429) → k = retries - 1 →
        callOpenAIWithRetry attempts retries =
          .err (some 429) ((List.range k).map (fun j => (j + 1) * 1000)))
    ∧ List.Pairwise (· < ·) ((List.range k).map (fun j => (j + 1) * 1000)) := by
  have hbase := callOpenAIWithRetry_after_rl attempts retries k hk hfail
  obtain ⟨f, hfz⟩ : ∃ f, retries - k = f + 1 := ⟨retries - k - 1, by omega⟩
  refine ⟨?_, ?_, ?_, ?_⟩
  · intro resp h
    rw [hbase, hfz]
    simp [runRetry, h]
  · intro st h hne
    rw [hbase, hfz]
    simp [runRetry, h, hne]
  · intro h hlast
    have hf0 : f = 0 := by omega
    rw [hbase, hfz, hf0]
    simp [runRetry, h]
  · exact (List.pairwise_lt_range k).map _ (fun a b hab => by omega)

/-- Witness for C1: two rate-limited attempts then a success, budget 3 —
the call succeeds with the third response after delays 1000 and 2000 ms. -/
theorem C1_retry_policy_witness :
    callOpenAIWithRetry
        (fun i => if i < 2 then .fail (some 429) else .succ ⟨some "ok"⟩) 3 =
      .ok ⟨some "ok"⟩ [1000, 2000] := by
  have h := (C1_retry_policy
      (fun i => if i < 2 then .fail (some 429) else .succ ⟨some "ok"⟩) 3 2
      (by omega)
      (by intro j hj; interval_cases j <;> rfl)).1 ⟨some "ok"⟩ (by rfl)
  have hl : (List.range 2).map (fun j => (j + 1) * 1000) = [1000, 2000] := by decide
  rw [hl] at h
  exact h

/-!  ## Case-insensitive search lemmas  -/

theorem ciStarts_self_append (pat rest : List Char) :
    ciStarts pat (pat ++ rest) = true := by
  induction pat with
  | nil => rfl
  | cons p ps ih => simp [ciStarts, ih]

theorem ciStarts_of_map_lc {pat s : List Char} (rest : List Char)
    (h : s.map lc = pat.map lc) : ciStarts pat (s ++ rest) = true := by
  induction pat generalizing s with
  | nil =>
      cases s with
      | nil => rfl
      | cons _ _ => simp at h
  | cons p ps ih =>
      cases s with
      | nil => simp at h
      | cons c cs =>
          simp only [List.map_cons, List.cons.injEq] at h
          simp [ciStarts, h.1, ih h.2]

theorem ciSplit_cons_pos {pat : List Char} {c : Char} {cs : List Char}
    (h : ciStarts pat (c :: cs) = true) :
    ciSplit pat (c :: cs) = some ([], (c :: cs).drop pat.length) := by
  simp [ciSplit, h]

theorem ciSplit_cons_neg {pat : List Char} {c : Char} {cs : List Char}
    (h : ciStarts pat (c :: cs) = false) :
    ciSplit pat (c :: cs) =
      (ciSplit pat cs).map (fun pr => (c :: pr.1, pr.2)) := by
  simp only [ciSplit, h, Bool.false_eq_true, if_false]
  cases ciSplit pat cs with
  | none => rfl
  | some pr => cases pr; rfl

/-- Matching a casing variant of the pattern at the start of the text:
the first occurrence is at position 0. -/
theorem ciSplit_append_match (pat O B : List Char) (hne : pat ≠ [])
    (h : O.map lc = pat.map lc) : ciSplit pat (O ++ B) = some ([], B) := by
  have hlen : O.length = pat.length := by
    have := congrArg List.length h; simpa using this
  cases O with
  | nil =>
      cases pat with
      | nil => exact absurd rfl hne
      | cons _ _ => simp at hlen
  | cons o os =>
      rw [List.cons_append,
        ciSplit_cons_pos (by rw [← List.cons_append]; exact ciStarts_of_map_lc B h)]
      rw [← List.cons_append, ← hlen, List.drop_left]

theorem ciSplit_self_append (pat B : List Char) (hne : pat ≠ []) :
    ciSplit pat (pat ++ B) = some ([], B) :=
  ciSplit_append_match pat pat B hne rfl

/-- Skipping a segment that nowhere contains the pattern's first character
(up to case): the search passes over it. -/
theorem ciSplit_append_skip (p0 : Char) (ps A B : List Char)
    (hA : ∀ c ∈ A, lc c ≠ lc p0) :
    ciSplit (p0 :: ps) (A ++ B) =
      (ciSplit (p0 :: ps) B).map (fun pr => (A ++ pr.1, pr.2)) := by
  induction A with
  | nil =>
      simp only [List.nil_append]
      cases ciSplit (p0 :: ps) B with
      | none => rfl
      | some pr => cases pr; rfl
  | cons a A ih =>
      have h1 : lc a ≠ lc p0 := hA a (List.mem_cons_self a A)
      have h2 : (lc p0 == lc a) = false :=
        beq_eq_false_iff_ne.mpr (fun h => h1 h.symm)
      rw [List.cons_append,
        ciSplit_cons_neg (by simp [ciStarts, h2]),
        ih (fun c hc => hA c (List.mem_cons_of_mem a hc))]
      cases ciSplit (p0 :: ps) B with
      | none => rfl
      | some pr => cases pr; rfl

theorem ciSplit_append_noStart (pat A B : List Char)
    (h : noStartIn pat A B = true) :
    ciSplit pat (A ++ B) = (ciSplit pat B).map (fun pr => (A ++ pr.1, pr.2)) := by
  induction A with
  | nil =>
      simp only [List.nil_append]
      cases ciSplit pat B with
      | none => rfl
      | some pr => cases pr; rfl
  | cons a A ih =>
      simp only [noStartIn, Bool.and_eq_true, Bool.not_eq_true'] at h
      rw [List.cons_append, ciSplit_cons_neg h.1, ih h.2]
      cases ciSplit pat B with
      | none => rfl
      | some pr => cases pr; rfl

/-- A pattern starting with a character that never occurs (up to case) in the
text does not occur in the text. -/
theorem ciSplit_eq_none (p0 : Char) (ps s : List Char)
    (hs : ∀ c ∈ s, lc c ≠ lc p0) : ciSplit (p0 :: ps) s = none := by
  induction s with
  | nil => rfl
  | cons c cs ih =>
      have h1 : lc c ≠ lc p0 := hs c (List.mem_cons_self c cs)
      have h2 : (lc p0 == lc c) = false :=
        beq_eq_false_iff_ne.mpr (fun h => h1 h.symm)
      rw [ciSplit_cons_neg (by simp [ciStarts, h2]),
        ih (fun d hd => hs d (List.mem_cons_of_mem c hd))]
      rfl

/-!  ## Whitespace and trim lemmas  -/

theorem mem_dropWhile {c : Char} {p : Char → Bool} {s : List Char}
    (h : c ∈ s.dropWhile p) : c ∈ s := by
  induction s with
  | nil => simp at h
  | cons a as ih =>
      by_cases hp : p a
      · rw [List.dropWhile_cons, if_pos hp] at h
        exact List.mem_cons_of_mem _ (ih h)
      · rw [List.dropWhile_cons, if_neg hp] at h
        exact h

theorem mem_jsTrim {c : Char} {s : List Char} (h : c ∈ jsTrim s) : c ∈ s := by
  unfold jsTrim at h
  rw [List.mem_reverse] at h
  have h2 := mem_dropWhile h
  rw [List.mem_reverse] at h2
  exact mem_dropWhile h2

theorem dropWhile_eq_self_of_head (p : Char → Bool) (s : List Char) (c : Char)
    (hh : s.head? = some c) (hc : p c = false) : s.dropWhile p = s := by
  cases s with
  | nil => simp at hh
  | cons a as =>
      simp only [List.head?_cons, Option.some.injEq] at hh
      subst hh
      simp [List.dropWhile_cons, hc]

theorem getLast?_cons_of_ne_nil (a : Char) (L : List Char) (h : L ≠ []) :
    (a :: L).getLast? = L.getLast? := by
  cases L with
  | nil => exact absurd rfl h
  | cons b bs => exact List.getLast?_cons_cons

theorem getLast?_append_right (A B : List Char) (hB : B ≠ []) :
    (A ++ B).getLast? = B.getLast? := by
  induction A with
  | nil => rfl
  | cons a A ih =>
      rw [List.cons_append,
        getLast?_cons_of_ne_nil a (A ++ B) (by
          intro hh
          exact hB (List.append_eq_nil.mp hh).2),
        ih]

/-- Trimming `P ++ B` when `B` starts and ends with a non-whitespace
character: only the leading whitespace of `P` goes. -/
theorem jsTrim_append (P B : List Char) (b0 bl : Char)
    (hhead : B.head? = some b0) (hb0 : isJsWs b0 = false)
    (hlast : B.getLast? = some bl) (hbl : isJsWs bl = false) :
    jsTrim (P ++ B) = P.dropWhile isJsWs ++ B := by
  unfold jsTrim
  have hBne : B ≠ [] := by
    intro hh; rw [hh] at hhead; simp at hhead
  have h1 : (P ++ B).dropWhile isJsWs = P.dropWhile isJsWs ++ B := by
    rw [List.dropWhile_append]
    by_cases hP : (P.dropWhile isJsWs).isEmpty
    · rw [if_pos hP, dropWhile_eq_self_of_head _ _ _ hhead hb0]
      rw [List.isEmpty_iff] at hP
      rw [hP, List.nil_append]
    · rw [if_neg hP]
  rw [h1]
  have h2 : (P.dropWhile isJsWs ++ B).reverse.dropWhile isJsWs =
      (P.dropWhile isJsWs ++ B).reverse := by
    refine dropWhile_eq_self_of_head _ _ bl ?_ hbl
    rw [List.head?_reverse, getLast?_append_right _ _ hBne, hlast]
  rw [h2, List.reverse_reverse]

theorem dropWhile_dropWhile (p : Char → Bool) (s : List Char) :
    (s.dropWhile p).dropWhile p = s.dropWhile p := by
  induction s with
  | nil => rfl
  | cons a as ih =>
      by_cases hp : p a
      · rw [List.dropWhile_cons, if_pos hp, ih]
      · rw [List.dropWhile_cons, if_neg hp, List.dropWhile_cons, if_neg hp]

/-- Trimming an already left-trimmed list trims only the right end, so
`jsTrim (P.dropWhile isJsWs) = jsTrim P`. -/
theorem jsTrim_dropWhile (P : List Char) :
    jsTrim (P.dropWhile isJsWs) = jsTrim P := by
  unfold jsTrim
  rw [dropWhile_dropWhile]

/-!  ## Basic facts about characters and strings used below  -/

theorem lc_lt_eq : lc '<' = '<' := by decide

theorem lc_lb_eq : lc '[' = '[' := by decide

theorem data_mk (l : List Char) : (⟨l⟩ : String).data = l := rfl

theorem data_append (s t : String) : (s ++ t).data = s.data ++ t.data := rfl

theorem ciStarts_head_ne_false (p : Char) (ps : List Char) (c : Char)
    (cs : List Char) (h : lc c ≠ lc p) : ciStarts (p :: ps) (c :: cs) = false := by
  have h2 : (lc p == lc c) = false := beq_eq_false_iff_ne.mpr (fun hh => h hh.symm)
  simp [ciStarts, h2]

/-- Head-based variant of `ciSplit_append_skip`. -/
theorem ciSplit_append_skip_head (pat A B : List Char) (p0 : Char)
    (hp : pat.head? = some p0) (hA : ∀ c ∈ A, lc c ≠ lc p0) :
    ciSplit pat (A ++ B) = (ciSplit pat B).map (fun pr => (A ++ pr.1, pr.2)) := by
  cases pat with
  | nil => simp at hp
  | cons q qs =>
      simp only [List.head?_cons, Option.some.injEq] at hp
      subst hp
      exact ciSplit_append_skip q qs A B hA

/-- Head-based variant of `ciSplit_eq_none`. -/
theorem ciSplit_eq_none_head (pat s : List Char) (p0 : Char)
    (hp : pat.head? = some p0) (hs : ∀ c ∈ s, lc c ≠ lc p0) :
    ciSplit pat s = none := by
  cases pat with
  | nil => simp at hp
  | cons q qs =>
      simp only [List.head?_cons, Option.some.injEq] at hp
      subst hp
      exact ciSplit_eq_none q qs s hs

/-- Extraction over the canonical shape `A ++ O ++ X ++ C ++ B` where `O`/`C`
are casing variants of the open/close tag and neither `A` nor `X` contains a
`<`: the first tag pair found is `O … C` and the captured body is `X`. -/
theorem extractInner_shape (pat1 pat2 O C A X B : List Char)
    (h1 : pat1.head? = some '<') (h2 : pat2.head? = some '<')
    (hO : O.map lc = pat1.map lc) (hC : C.map lc = pat2.map lc)
    (hpat1 : pat1 ≠ []) (hpat2 : pat2 ≠ [])
    (hA : ∀ c ∈ A, lc c ≠ '<') (hX : ∀ c ∈ X, lc c ≠ '<') :
    extractInner pat1 pat2 (A ++ (O ++ (X ++ (C ++ B)))) = some X := by
  have e1 : ciSplit pat1 (A ++ (O ++ (X ++ (C ++ B)))) = some (A, X ++ (C ++ B)) := by
    rw [ciSplit_append_skip_head pat1 A _ '<' h1
        (by intro c hc; rw [lc_lt_eq]; exact hA c hc),
      ciSplit_append_match pat1 O _ hpat1 hO]
    simp
  have e2 : ciSplit pat2 (X ++ (C ++ B)) = some (X, B) := by
    rw [ciSplit_append_skip_head pat2 X _ '<' h2
        (by intro c hc; rw [lc_lt_eq]; exact hX c hc),
      ciSplit_append_match pat2 C _ hpat2 hC]
    simp
  simp [extractInner, e1, e2]

/-!  ## Marker-stripping lemmas  -/

theorem stripMarkerGo_nil (fuel : Nat) : stripMarkerGo fuel [] = [] := by
  cases fuel <;> rfl

/-- In a text whose characters are never `[` (up to case), the marker regex
matches at no position: after skipping leading whitespace the next character,
if any, belongs to the text and is not `[`. -/
theorem marker_no_start (s : List Char) (hs : ∀ c ∈ s, lc c ≠ '[') :
    ciStarts orderMarker (dropWs s) = false := by
  induction s with
  | nil => rfl
  | cons a as ih =>
      by_cases hws : isJsWs a
      · rw [dropWs, List.dropWhile_cons, if_pos hws]
        exact ih (fun c hc => hs c (List.mem_cons_of_mem a hc))
      · rw [dropWs, List.dropWhile_cons, if_neg hws,
          show orderMarker = '[' :: "[order_completed]]".data from rfl]
        exact ciStarts_head_ne_false _ _ _ _
          (by rw [lc_lb_eq]; exact hs a (List.mem_cons_self a as))

/-- Same, for a text of the form `A ++ B` scanned from inside `A`, provided
`A` is `[`-free and ends in a non-whitespace character (so skipping
whitespace never crosses into `B`). -/
theorem marker_no_start_append (A B : List Char)
    (hA : ∀ c ∈ A, lc c ≠ '[')
    (hlast : ∀ x, A.getLast? = some x → isJsWs x = false) :
    A ≠ [] → ciStarts orderMarker (dropWs (A ++ B)) = false := by
  induction A with
  | nil => intro h; exact absurd rfl h
  | cons a A ih =>
      intro _
      by_cases hws : isJsWs a
      · cases A with
        | nil =>
            have := hlast a (by rfl)
            rw [this] at hws
            exact absurd hws (by simp)
        | cons b B' =>
            rw [List.cons_append, dropWs, List.dropWhile_cons, if_pos hws]
            exact ih (fun c hc => hA c (List.mem_cons_of_mem a hc))
              (fun x hx => hlast x (by rw [List.getLast?_cons_cons]; exact hx))
              (by simp)
      · rw [List.cons_append, dropWs, List.dropWhile_cons, if_neg hws,
          show orderMarker = '[' :: "[order_completed]]".data from rfl]
        exact ciStarts_head_ne_false _ _ _ _
          (by rw [lc_lb_eq]; exact hA a (List.mem_cons_self a A))

/-- The single match step of the scan: at the start of the (upper-case)
marker the regex fires and consumes it entirely. -/
theorem stripMarkerGo_markerU (f : Nat) : stripMarkerGo (f + 1) markerU = [] := by
  rw [show markerU = '[' :: "[ORDER_COMPLETED]]".data from rfl]
  simp only [stripMarkerGo]
  rw [if_pos (by decide)]
  rw [show dropWs ((dropWs ('[' :: "[ORDER_COMPLETED]]".data)).drop
      orderMarker.length) = [] from by decide]
  exact stripMarkerGo_nil f

/-- Scanning `A ++ marker` where `A` is `[`-free and ends in non-whitespace:
the single match is the trailing marker, and it is removed. -/
theorem stripMarkerGo_append_marker (A : List Char)
    (hA : ∀ c ∈ A, lc c ≠ '[')
    (hlast : ∀ x, A.getLast? = some x → isJsWs x = false) :
    ∀ fuel, (A ++ markerU).length ≤ fuel →
      stripMarkerGo fuel (A ++ markerU) = A := by
  induction A with
  | nil =>
      intro fuel hfuel
      have h19 : (([] : List Char) ++ markerU).length = 19 := by decide
      obtain ⟨f, rfl⟩ : ∃ f, fuel = f + 1 := ⟨fuel - 1, by omega⟩
      simpa using stripMarkerGo_markerU f
  | cons a A ih =>
      intro fuel hfuel
      have hlen : ((a :: A) ++ markerU).length = (A ++ markerU).length + 1 := by
        simp
      obtain ⟨f, rfl⟩ : ∃ f, fuel = f + 1 := ⟨fuel - 1, by omega⟩
      have hcond : ciStarts orderMarker (dropWs (a :: (A ++ markerU))) = false := by
        rw [← List.cons_append]
        exact marker_no_start_append (a :: A) markerU hA hlast (by simp)
      rw [List.cons_append]
      simp only [stripMarkerGo]
      rw [if_neg (by simp [hcond])]
      have hA' : ∀ c ∈ A, lc c ≠ '[' := fun c hc => hA c (List.mem_cons_of_mem a hc)
      have hlast' : ∀ x, A.getLast? = some x → isJsWs x = false := by
        intro x hx
        cases A with
        | nil => simp at hx
        | cons b B' =>
            exact hlast x (by rw [List.getLast?_cons_cons]; exact hx)
      exact congrArg (a :: ·) (ih hA' hlast' f (by omega))

/-- Scanning a `[`-free text is the identity (no match anywhere). -/
theorem stripMarkerGo_tagfree (s : List Char) (hs : ∀ c ∈ s, lc c ≠ '[') :
    ∀ fuel, stripMarkerGo fuel s = s := by
  induction s with
  | nil => intro fuel; exact stripMarkerGo_nil fuel
  | cons a as ih =>
      intro fuel
      cases fuel with
      | zero => rfl
      | succ f =>
          simp only [stripMarkerGo]
          rw [if_neg (by rw [marker_no_start (a :: as) hs]; simp)]
          rw [ih (fun c hc => hs c (List.mem_cons_of_mem a hc)) f]

/-- Applying `stripOrderCompletedTag` to a `[`-free string only trims. -/
theorem stripOrderCompletedTag_tagfree (s : String)
    (hs : ∀ c ∈ s.data, lc c ≠ '[') :
    stripOrderCompletedTag s = jsTrimStr s := by
  unfold stripOrderCompletedTag jsTrimStr
  rw [stripMarkerGo_tagfree s.data hs]

/-- Applying `stripTicketBlock` to a `<`-free string only trims. -/
theorem stripTicketBlock_noTags (s : String) (hs : ∀ c ∈ s.data, lc c ≠ '<') :
    stripTicketBlock s = jsTrimStr s := by
  unfold stripTicketBlock
  rw [ciSplit_eq_none_head "<ticket>".data s.data '<' rfl
    (by intro c hc; rw [lc_lt_eq]; exact hs c hc)]
  rfl

/-!  ## The well-formed ticket reply: extraction and sanitization  -/

theorem append_ne_nil_right (A B : List Char) (h : B ≠ []) : A ++ B ≠ [] := by
  intro hh
  exact h (List.append_eq_nil.mp hh).2

theorem ticketReply_data (P X Y Z : String) :
    (ticketReply P X Y Z).data =
      P.data ++ (tkOpenL ++ (suOpenL ++ (X.data ++ (suCloseL ++ (deOpenL ++
        (Y.data ++ (deCloseL ++ (caOpenL ++ (Z.data ++ (caCloseL ++
        (tkCloseL ++ markerU))))))))))) := by
  simp [ticketReply, data_append, suOpenL, suCloseL, deOpenL, deCloseL,
    caOpenL, caCloseL, tkOpenL, tkCloseL, markerU, List.append_assoc]

theorem blockNoMarker_ne_nil (X Y Z : List Char) : blockNoMarker X Y Z ≠ [] := by
  unfold blockNoMarker
  exact append_ne_nil_right _ _ (append_ne_nil_right _ _ (append_ne_nil_right _ _
    (append_ne_nil_right _ _ (append_ne_nil_right _ _ (append_ne_nil_right _ _
    (append_ne_nil_right _ _ (append_ne_nil_right _ _ (append_ne_nil_right _ _
    (append_ne_nil_right _ _ (by decide))))))))))

theorem blockNoMarker_head (X Y Z : List Char) :
    (blockNoMarker X Y Z).head? = some '<' := rfl

theorem blockNoMarker_getLast (X Y Z : List Char) :
    (blockNoMarker X Y Z).getLast? = some '>' := by
  unfold blockNoMarker
  have h0 : tkCloseL ≠ [] := by decide
  have h1 : caCloseL ++ tkCloseL ≠ [] := append_ne_nil_right _ _ h0
  have h2 : Z ++ (caCloseL ++ tkCloseL) ≠ [] := append_ne_nil_right _ _ h1
  have h3 : caOpenL ++ (Z ++ (caCloseL ++ tkCloseL)) ≠ [] := append_ne_nil_right _ _ h2
  have h4 : deCloseL ++ (caOpenL ++ (Z ++ (caCloseL ++ tkCloseL))) ≠ [] :=
    append_ne_nil_right _ _ h3
  have h5 : Y ++ (deCloseL ++ (caOpenL ++ (Z ++ (caCloseL ++ tkCloseL)))) ≠ [] :=
    append_ne_nil_right _ _ h4
  have h6 : deOpenL ++ (Y ++ (deCloseL ++ (caOpenL ++ (Z ++ (caCloseL ++
      tkCloseL))))) ≠ [] := append_ne_nil_right _ _ h5
  have h7 : suCloseL ++ (deOpenL ++ (Y ++ (deCloseL ++ (caOpenL ++ (Z ++
      (caCloseL ++ tkCloseL)))))) ≠ [] := append_ne_nil_right _ _ h6
  have h8 : X ++ (suCloseL ++ (deOpenL ++ (Y ++ (deCloseL ++ (caOpenL ++
      (Z ++ (caCloseL ++ tkCloseL))))))) ≠ [] := append_ne_nil_right _ _ h7
  have h9 : suOpenL ++ (X ++ (suCloseL ++ (deOpenL ++ (Y ++ (deCloseL ++
      (caOpenL ++ (Z ++ (caCloseL ++ tkCloseL)))))))) ≠ [] :=
    append_ne_nil_right _ _ h8
  rw [getLast?_append_right _ _ h9, getLast?_append_right _ _ h8,
    getLast?_append_right _ _ h7, getLast?_append_right _ _ h6,
    getLast?_append_right _ _ h5, getLast?_append_right _ _ h4,
    getLast?_append_right _ _ h3, getLast?_append_right _ _ h2,
    getLast?_append_right _ _ h1, getLast?_append_right _ _ h0]
  decide

/-- Extraction of the `su` field over the canonical ticket shape: the first
`<su>` is the one inside the block (neither `P` nor anything in `<ticket>`
can start it) and the first `</su>` after it closes it around `X`. -/
theorem extract_su_shape (P X R : List Char)
    (hP : ∀ c ∈ P, lc c ≠ '<') (hX : ∀ c ∈ X, lc c ≠ '<') :
    extractInner suOpenL suCloseL
      (P ++ (tkOpenL ++ (suOpenL ++ (X ++ (suCloseL ++ R))))) = some X := by
  have e1 : ciSplit suOpenL
      (P ++ (tkOpenL ++ (suOpenL ++ (X ++ (suCloseL ++ R))))) =
      some (P ++ tkOpenL, X ++ (suCloseL ++ R)) := by
    rw [ciSplit_append_skip_head suOpenL P _ '<' rfl
        (by intro c hc; rw [lc_lt_eq]; exact hP c hc),
      ciSplit_append_noStart suOpenL tkOpenL _ rfl,
      ciSplit_self_append suOpenL _ (by decide)]
    simp
  have e2 : ciSplit suCloseL (X ++ (suCloseL ++ R)) = some (X, R) := by
    rw [ciSplit_append_skip_head suCloseL X _ '<' rfl
        (by intro c hc; rw [lc_lt_eq]; exact hX c hc),
      ciSplit_self_append suCloseL _ (by decide)]
    simp
  simp [extractInner, e1, e2]

/-- Extraction of the `de` field over the canonical ticket shape. -/
theorem extract_de_shape (P X Y R : List Char)
    (hP : ∀ c ∈ P, lc c ≠ '<') (hX : ∀ c ∈ X, lc c ≠ '<')
    (hY : ∀ c ∈ Y, lc c ≠ '<') :
    extractInner deOpenL deCloseL
      (P ++ (tkOpenL ++ (suOpenL ++ (X ++ (suCloseL ++ (deOpenL ++
        (Y ++ (deCloseL ++ R)))))))) = some Y := by
  have e1 : ciSplit deOpenL
      (P ++ (tkOpenL ++ (suOpenL ++ (X ++ (suCloseL ++ (deOpenL ++
        (Y ++ (deCloseL ++ R)))))))) =
      some (P ++ (tkOpenL ++ (suOpenL ++ (X ++ suCloseL))),
        Y ++ (deCloseL ++ R)) := by
    rw [ciSplit_append_skip_head deOpenL P _ '<' rfl
        (by intro c hc; rw [lc_lt_eq]; exact hP c hc),
      ciSplit_append_noStart deOpenL tkOpenL _ rfl,
      ciSplit_append_noStart deOpenL suOpenL _ rfl,
      ciSplit_append_skip_head deOpenL X _ '<' rfl
        (by intro c hc; rw [lc_lt_eq]; exact hX c hc),
      ciSplit_append_noStart deOpenL suCloseL _ rfl,
      ciSplit_self_append deOpenL _ (by decide)]
    simp
  have e2 : ciSplit deCloseL (Y ++ (deCloseL ++ R)) = some (Y, R) := by
    rw [ciSplit_append_skip_head deCloseL Y _ '<' rfl
        (by intro c hc; rw [lc_lt_eq]; exact hY c hc),
      ciSplit_self_append deCloseL _ (by decide)]
    simp
  simp [extractInner, e1, e2]

/-- Extraction of the `ca` field over the canonical ticket shape. -/
theorem extract_ca_shape (P X Y Z R : List Char)
    (hP : ∀ c ∈ P, lc c ≠ '<') (hX : ∀ c ∈ X, lc c ≠ '<')
    (hY : ∀ c ∈ Y, lc c ≠ '<') (hZ : ∀ c ∈ Z, lc c ≠ '<') :
    extractInner caOpenL caCloseL
      (P ++ (tkOpenL ++ (suOpenL ++ (X ++ (suCloseL ++ (deOpenL ++
        (Y ++ (deCloseL ++ (caOpenL ++ (Z ++ (caCloseL ++ R))))))))))) =
      some Z := by
  have e1 : ciSplit caOpenL
      (P ++ (tkOpenL ++ (suOpenL ++ (X ++ (suCloseL ++ (deOpenL ++
        (Y ++ (deCloseL ++ (caOpenL ++ (Z ++ (caCloseL ++ R))))))))))) =
      some (P ++ (tkOpenL ++ (suOpenL ++ (X ++ (suCloseL ++ (deOpenL ++
        (Y ++ deCloseL)))))), Z ++ (caCloseL ++ R)) := by
    rw [ciSplit_append_skip_head caOpenL P _ '<' rfl
        (by intro c hc; rw [lc_lt_eq]; exact hP c hc),
      ciSplit_append_noStart caOpenL tkOpenL _ rfl,
      ciSplit_append_noStart caOpenL suOpenL _ rfl,
      ciSplit_append_skip_head caOpenL X _ '<' rfl
        (by intro c hc; rw [lc_lt_eq]; exact hX c hc),
      ciSplit_append_noStart caOpenL suCloseL _ rfl,
      ciSplit_append_noStart caOpenL deOpenL _ rfl,
      ciSplit_append_skip_head caOpenL Y _ '<' rfl
        (by intro c hc; rw [lc_lt_eq]; exact hY c hc),
      ciSplit_append_noStart caOpenL deCloseL _ rfl,
      ciSplit_self_append caOpenL _ (by decide)]
    simp
  have e2 : ciSplit caCloseL (Z ++ (caCloseL ++ R)) = some (Z, R) := by
    rw [ciSplit_append_skip_head caCloseL Z _ '<' rfl
        (by intro c hc; rw [lc_lt_eq]; exact hZ c hc),
      ciSplit_self_append caCloseL _ (by decide)]
    simp
  simp [extractInner, e1, e2]

/-- Location of the closing `</ticket>` inside the block body: nothing in
the `su`/`de`/`ca` region can start it. -/
theorem ciSplit_tkClose_shape (X Y Z B : List Char)
    (hX : ∀ c ∈ X, lc c ≠ '<') (hY : ∀ c ∈ Y, lc c ≠ '<')
    (hZ : ∀ c ∈ Z, lc c ≠ '<') :
    ciSplit tkCloseL
      (suOpenL ++ (X ++ (suCloseL ++ (deOpenL ++ (Y ++ (deCloseL ++
        (caOpenL ++ (Z ++ (caCloseL ++ (tkCloseL ++ B)))))))))) =
      some (suOpenL ++ (X ++ (suCloseL ++ (deOpenL ++ (Y ++ (deCloseL ++
        (caOpenL ++ (Z ++ caCloseL))))))), B) := by
  rw [ciSplit_append_noStart tkCloseL suOpenL _ rfl,
    ciSplit_append_skip_head tkCloseL X _ '<' rfl
      (by intro c hc; rw [lc_lt_eq]; exact hX c hc),
    ciSplit_append_noStart tkCloseL suCloseL _ rfl,
    ciSplit_append_noStart tkCloseL deOpenL _ rfl,
    ciSplit_append_skip_head tkCloseL Y _ '<' rfl
      (by intro c hc; rw [lc_lt_eq]; exact hY c hc),
    ciSplit_append_noStart tkCloseL deCloseL _ rfl,
    ciSplit_append_noStart tkCloseL caOpenL _ rfl,
    ciSplit_append_skip_head tkCloseL Z _ '<' rfl
      (by intro c hc; rw [lc_lt_eq]; exact hZ c hc),
    ciSplit_append_noStart tkCloseL caCloseL _ rfl,
    ciSplit_self_append tkCloseL _ (by decide)]
  simp

/-!  ## Occurrence lemmas for the marker  -/

theorem ciContains_cons (pat : List Char) (a : Char) (s : List Char)
    (h : ciContains pat s = true) : ciContains pat (a :: s) = true := by
  by_cases hst : ciStarts pat (a :: s) = true
  · simp [ciContains, ciSplit_cons_pos hst]
  · rw [ciContains, ciSplit_cons_neg (by simpa using hst)]
    unfold ciContains at h
    cases hcs : ciSplit pat s with
    | none => rw [hcs] at h; simp at h
    | some pr => simp

theorem ciContains_append_left (pat A s : List Char)
    (h : ciContains pat s = true) : ciContains pat (A ++ s) = true := by
  induction A with
  | nil => simpa using h
  | cons a A ih => exact ciContains_cons pat a (A ++ s) ih

/-- A casing variant of the pattern is found by the search. -/
theorem ciContains_variant (pat M : List Char) (hpat : pat ≠ [])
    (hM : M.map lc = pat.map lc) : ciContains pat M = true := by
  have h := ciSplit_append_match pat M [] hpat hM
  rw [List.append_nil] at h
  simp [ciContains, h]

/-!  ## Sanitization of the canonical ticket reply  -/

theorem tagFree_no_lb (P : String) (hP : TagFree P)
    (X Y Z : String) (hX : TagFree X) (hY : TagFree Y) (hZ : TagFree Z) :
    ∀ c ∈ P.data ++ blockNoMarker X.data Y.data Z.data, lc c ≠ '[' := by
  intro c hc
  simp only [blockNoMarker, List.mem_append] at hc
  rcases hc with hc | hc | hc | hc | hc | hc | hc | hc | hc | hc | hc | hc
  · exact (hP c hc).2
  · exact (by decide : ∀ x ∈ tkOpenL, lc x ≠ '[') c hc
  · exact (by decide : ∀ x ∈ suOpenL, lc x ≠ '[') c hc
  · exact (hX c hc).2
  · exact (by decide : ∀ x ∈ suCloseL, lc x ≠ '[') c hc
  · exact (by decide : ∀ x ∈ deOpenL, lc x ≠ '[') c hc
  · exact (hY c hc).2
  · exact (by decide : ∀ x ∈ deCloseL, lc x ≠ '[') c hc
  · exact (by decide : ∀ x ∈ caOpenL, lc x ≠ '[') c hc
  · exact (hZ c hc).2
  · exact (by decide : ∀ x ∈ caCloseL, lc x ≠ '[') c hc
  · exact (by decide : ∀ x ∈ tkCloseL, lc x ≠ '[') c hc

/-- Stripping the marker from the canonical ticket reply removes exactly the
trailing marker (the only match) and trims. -/
theorem stripOCT_ticketReply (P X Y Z : String)
    (hP : TagFree P) (hX : TagFree X) (hY : TagFree Y) (hZ : TagFree Z) :
    stripOrderCompletedTag (ticketReply P X Y Z) =
      ⟨jsTrim (P.data ++ blockNoMarker X.data Y.data Z.data)⟩ := by
  have hdata : (ticketReply P X Y Z).data =
      (P.data ++ blockNoMarker X.data Y.data Z.data) ++ markerU := by
    rw [ticketReply_data]
    simp [blockNoMarker, List.append_assoc]
  have hlastA : ∀ x,
      (P.data ++ blockNoMarker X.data Y.data Z.data).getLast? = some x →
      isJsWs x = false := by
    intro x hx
    rw [getLast?_append_right _ _ (blockNoMarker_ne_nil _ _ _),
      blockNoMarker_getLast] at hx
    rw [← Option.some.inj hx]
    decide
  unfold stripOrderCompletedTag
  rw [hdata,
    stripMarkerGo_append_marker _ (tagFree_no_lb P hP X Y Z hX hY hZ) hlastA _
      (le_refl _)]

/-- Removing the ticket block from the marker-stripped canonical reply
leaves only the trimmed leading text. -/
theorem sanitize_ticketReply (P X Y Z : String)
    (hP : TagFree P) (hX : TagFree X) (hY : TagFree Y) (hZ : TagFree Z) :
    stripTicketBlock (stripOrderCompletedTag (ticketReply P X Y Z)) =
      jsTrimStr P := by
  rw [stripOCT_ticketReply P X Y Z hP hX hY hZ]
  have hstep2 : jsTrim (P.data ++ blockNoMarker X.data Y.data Z.data) =
      P.data.dropWhile isJsWs ++ blockNoMarker X.data Y.data Z.data :=
    jsTrim_append _ _ '<' '>' (blockNoMarker_head _ _ _) (by decide)
      (blockNoMarker_getLast _ _ _) (by decide)
  rw [hstep2]
  have hdP : ∀ c ∈ P.data.dropWhile isJsWs, lc c ≠ '<' := by
    intro c hc
    exact (hP c (mem_dropWhile hc)).1
  have hsplit1 : ciSplit tkOpenL
      (P.data.dropWhile isJsWs ++ blockNoMarker X.data Y.data Z.data) =
      some (P.data.dropWhile isJsWs,
        suOpenL ++ (X.data ++ (suCloseL ++ (deOpenL ++ (Y.data ++ (deCloseL ++
          (caOpenL ++ (Z.data ++ (caCloseL ++ tkCloseL))))))))) := by
    rw [show blockNoMarker X.data Y.data Z.data =
        tkOpenL ++ (suOpenL ++ (X.data ++ (suCloseL ++ (deOpenL ++ (Y.data ++
          (deCloseL ++ (caOpenL ++ (Z.data ++ (caCloseL ++ tkCloseL)))))))))
      from rfl]
    rw [ciSplit_append_skip_head tkOpenL _ _ '<' rfl
        (by intro c hc; rw [lc_lt_eq]; exact hdP c hc),
      ciSplit_self_append tkOpenL _ (by decide)]
    simp
  have hsplit2 : ciSplit tkCloseL
      (suOpenL ++ (X.data ++ (suCloseL ++ (deOpenL ++ (Y.data ++ (deCloseL ++
        (caOpenL ++ (Z.data ++ (caCloseL ++ tkCloseL))))))))) =
      some (suOpenL ++ (X.data ++ (suCloseL ++ (deOpenL ++ (Y.data ++
        (deCloseL ++ (caOpenL ++ (Z.data ++ caCloseL))))))), []) := by
    rw [show (caCloseL ++ tkCloseL : List Char) = caCloseL ++ (tkCloseL ++ [])
      from by simp]
    exact ciSplit_tkClose_shape X.data Y.data Z.data []
      (fun c hc => (hX c hc).1) (fun c hc => (hY c hc).1)
      (fun c hc => (hZ c hc).1)
  unfold stripTicketBlock
  rw [show (("<ticket>".data : List Char)) = tkOpenL from rfl,
    show (("</ticket>".data : List Char)) = tkCloseL from rfl]
  rw [data_mk, hsplit1]
  simp only []
  rw [hsplit2]
  simp only [List.append_nil]
  unfold jsTrimStr
  rw [jsTrim_dropWhile]

/-!  ## Session-store lemmas  -/

theorem getSession_set_self (m : SessionMap) (k : String) (v : List Message) :
    getSession (setSession m k v) k = some v := by
  induction m with
  | nil => simp [setSession, getSession]
  | cons p rest ih =>
      obtain ⟨k0, w⟩ := p
      by_cases hk : k0 = k
      · subst hk
        simp [setSession, getSession]
      · simp [setSession, getSession, hk, ih]

theorem getSession_set_other (m : SessionMap) (k k' : String)
    (v : List Message) (h : k' ≠ k) :
    getSession (setSession m k v) k' = getSession m k' := by
  induction m with
  | nil => simp [setSession, getSession, if_neg (Ne.symm h)]
  | cons p rest ih =>
      obtain ⟨k0, w⟩ := p
      by_cases hk : k0 = k
      · subst hk
        simp [setSession, getSession, if_neg (Ne.symm h)]
      · simp [setSession, getSession, hk, ih]

theorem getSession_mem (m : SessionMap) (k : String) (ctx : List Message)
    (h : getSession m k = some ctx) : (k, ctx) ∈ m := by
  induction m with
  | nil => simp [getSession] at h
  | cons p rest ih =>
      obtain ⟨k0, w⟩ := p
      by_cases hk : k0 = k
      · subst hk
        rw [getSession, if_pos rfl] at h
        cases h
        exact List.mem_cons_self _ _
      · rw [getSession, if_neg hk] at h
        exact List.mem_cons_of_mem _ (ih h)

theorem mem_setSession (m : SessionMap) (k : String) (v : List Message)
    (p : String × List Message) (h : p ∈ setSession m k v) :
    p ∈ m ∨ p = (k, v) := by
  induction m with
  | nil =>
      simp [setSession] at h
      exact Or.inr h
  | cons q rest ih =>
      obtain ⟨k0, w⟩ := q
      by_cases hk : k0 = k
      · subst hk
        rw [setSession, if_pos rfl] at h
        rcases List.mem_cons.mp h with h | h
        · exact Or.inr h
        · exact Or.inl (List.mem_cons_of_mem _ h)
      · rw [setSession, if_neg hk] at h
        rcases List.mem_cons.mp h with h | h
        · exact Or.inl (h ▸ List.mem_cons_self _ _)
        · rcases ih h with h | h
          · exact Or.inl (List.mem_cons_of_mem _ h)
          · exact Or.inr h

theorem mem_deleteSession (m : SessionMap) (k : String)
    (p : String × List Message) (h : p ∈ deleteSession m k) : p ∈ m := by
  induction m with
  | nil => simp [deleteSession] at h
  | cons q rest ih =>
      obtain ⟨k0, w⟩ := q
      by_cases hk : k0 = k
      · subst hk
        rw [deleteSession, if_pos rfl] at h
        exact List.mem_cons_of_mem _ h
      · rw [deleteSession, if_neg hk] at h
        rcases List.mem_cons.mp h with h | h
        · exact h ▸ List.mem_cons_self _ _
        · exact List.mem_cons_of_mem _ (ih h)

theorem sessionsWF_set (m : SessionMap) (k : String) (v : List Message)
    (hm : SessionsWF m)
    (hv : v.head? = some (Message.mk "system" systemPrompt)) :
    SessionsWF (setSession m k v) := by
  intro p hp
  rcases mem_setSession m k v p hp with h | h
  · exact hm p h
  · rw [h]
    exact hv

theorem sessionsWF_delete (m : SessionMap) (k : String) (hm : SessionsWF m) :
    SessionsWF (deleteSession m k) :=
  fun p hp => hm p (mem_deleteSession m k p hp)

theorem head?_append_left {α : Type} (l t : List α) (x : α)
    (h : l.head? = some x) : (l ++ t).head? = some x := by
  cases l with
  | nil => simp at h
  | cons a as =>
      simp only [List.head?_cons, Option.some.injEq] at h
      simp [h]

/-- Lazy creation preserves well-formedness of the map, and the returned
context always starts with the system message when the map was
well-formed. -/
theorem getContextForSession_wf (m : SessionMap) (sid : String)
    (hm : SessionsWF m) :
    SessionsWF (getContextForSession m sid).1 ∧
    (getContextForSession m sid).2.head? =
      some (Message.mk "system" systemPrompt) := by
  unfold getContextForSession
  cases h : getSession m sid with
  | some ctx => exact ⟨hm, hm (sid, ctx) (getSession_mem m sid ctx h)⟩
  | none =>
      refine ⟨sessionsWF_set m sid _ hm rfl, rfl⟩

theorem summarize_wf (a : Nat → GatewayStep) (m : SessionMap) (sid : String)
    (hm : SessionsWF m) :
    SessionsWF (summarizeContextIfNeeded a m sid).1 := by
  unfold summarizeContextIfNeeded
  cases h : getSession m sid with
  | none => exact hm
  | some ctx =>
      by_cases hlen :
        (ctx.drop 1).length ≤ MAX_HISTORY_MESSAGES_BEFORE_SUMMARY
      · simp only [if_pos hlen]
        exact hm
      · simp only [if_neg hlen]
        cases hc : callOpenAIWithRetry a 3 with
        | err st ds => exact hm
        | undef ds => exact hm
        | ok resp ds =>
            cases ctx with
            | nil => exact hm
            | cons c0 rest =>
                refine sessionsWF_set m sid _ hm ?_
                have hc0 := hm (sid, c0 :: rest) (getSession_mem m sid _ h)
                simp only [List.head?_cons, Option.some.injEq] at hc0
                simp [hc0]

theorem handleChat_wf (sAtt cAtt : Nat → GatewayStep)
    (jira : Except Unit String) (m : SessionMap) (msg : String)
    (sid : Option String) (hm : SessionsWF m) :
    SessionsWF (handleChatMessage sAtt cAtt jira m msg sid).1 := by
  unfold handleChatMessage
  obtain ⟨h1, -⟩ := getContextForSession_wf m (resolveSessionId sid) hm
  cases hs : summarizeContextIfNeeded sAtt
      (getContextForSession m (resolveSessionId sid)).1
      (resolveSessionId sid) with
  | mk ms es =>
      have hms : SessionsWF ms := by
        have := summarize_wf sAtt (getContextForSession m (resolveSessionId sid)).1
          (resolveSessionId sid) h1
        rw [hs] at this
        exact this
      cases es with
      | error e => exact hms
      | ok u =>
          cases u
          obtain ⟨h2, h3⟩ := getContextForSession_wf ms (resolveSessionId sid) hms
          have hctx2 : ((getContextForSession ms (resolveSessionId sid)).2 ++
              [Message.mk "user" msg]).head? =
              some (Message.mk "system" systemPrompt) :=
            head?_append_left _ _ _ h3
          have hm3 : SessionsWF
              (setSession (getContextForSession ms (resolveSessionId sid)).1
                (resolveSessionId sid)
                ((getContextForSession ms (resolveSessionId sid)).2 ++
                  [Message.mk "user" msg])) :=
            sessionsWF_set _ _ _ h2 hctx2
          cases hcall : callOpenAIWithRetry cAtt 3 with
          | err st ds => simp only []; exact hm3
          | undef ds => simp only []; exact hm3
          | ok resp ds =>
              simp only []
              have hm4 : SessionsWF (setSession
                  (setSession (getContextForSession ms (resolveSessionId sid)).1
                    (resolveSessionId sid)
                    ((getContextForSession ms (resolveSessionId sid)).2 ++
                      [Message.mk "user" msg]))
                  (resolveSessionId sid)
                  ((getContextForSession ms (resolveSessionId sid)).2 ++
                    [Message.mk "user" msg] ++
                    [Message.mk "assistant"
                      (stripTicketBlock (stripOrderCompletedTag
                        (jsOrElse resp.output_text
                          "Sorry, I had trouble answering that.")))])) :=
                sessionsWF_set _ _ _ hm3
                  (head?_append_left _ _ _ hctx2)
              by_cases hdone : isOrderCompleted
                  (jsOrElse resp.output_text
                    "Sorry, I had trouble answering that.") = true
              · rw [if_pos hdone]
                cases jira with
                | ok key => exact sessionsWF_set _ _ _ hm4 rfl
                | error e => exact hm4
              · rw [if_neg hdone]
                exact hm4

theorem getContextForSession_fst_other (m : SessionMap) (sid k : String)
    (hk : k ≠ sid) :
    getSession (getContextForSession m sid).1 k = getSession m k := by
  unfold getContextForSession
  cases h : getSession m sid with
  | some ctx => rfl
  | none =>
      simp only []
      exact getSession_set_other m sid k _ hk

theorem summarize_fst_other (a : Nat → GatewayStep) (m : SessionMap)
    (sid k : String) (hk : k ≠ sid) :
    getSession (summarizeContextIfNeeded a m sid).1 k = getSession m k := by
  unfold summarizeContextIfNeeded
  cases h : getSession m sid with
  | none => rfl
  | some ctx =>
      simp only []
      by_cases hlen :
        (ctx.drop 1).length ≤ MAX_HISTORY_MESSAGES_BEFORE_SUMMARY
      · rw [if_pos hlen]
      · rw [if_neg hlen]
        cases hc : callOpenAIWithRetry a 3 with
        | ok resp ds =>
            cases ctx with
            | nil => rfl
            | cons c0 rest =>
                simp only []
                exact getSession_set_other m sid k _ hk
        | err st ds => rfl
        | undef ds => rfl

theorem handleChat_fst_other (sAtt cAtt : Nat → GatewayStep)
    (jira : Except Unit String) (m : SessionMap) (msg : String)
    (sid : Option String) (k : String) (hk : k ≠ resolveSessionId sid) :
    getSession (handleChatMessage sAtt cAtt jira m msg sid).1 k =
      getSession m k := by
  unfold handleChatMessage
  cases hs : summarizeContextIfNeeded sAtt
      (getContextForSession m (resolveSessionId sid)).1
      (resolveSessionId sid) with
  | mk ms es =>
      have hms : getSession ms k = getSession m k := by
        have h1 := summarize_fst_other sAtt
          (getContextForSession m (resolveSessionId sid)).1
          (resolveSessionId sid) k hk
        rw [hs] at h1
        exact h1.trans (getContextForSession_fst_other m _ k hk)
      cases es with
      | error e => exact hms
      | ok u =>
          cases u
          have hmx : getSession (getContextForSession ms (resolveSessionId sid)).1 k =
              getSession m k :=
            (getContextForSession_fst_other ms _ k hk).trans hms
          cases hcall : callOpenAIWithRetry cAtt 3 with
          | err st ds =>
              simp only []
              exact (getSession_set_other _ _ k _ hk).trans hmx
          | undef ds =>
              simp only []
              exact (getSession_set_other _ _ k _ hk).trans hmx
          | ok resp ds =>
              simp only []
              by_cases hdone : isOrderCompleted
                  (jsOrElse resp.output_text
                    "Sorry, I had trouble answering that.") = true
              · rw [if_pos hdone]
                cases jira with
                | ok key =>
                    exact (getSession_set_other _ _ k _ hk).trans
                      ((getSession_set_other _ _ k _ hk).trans
                        ((getSession_set_other _ _ k _ hk).trans hmx))
                | error e =>
                    exact (getSession_set_other _ _ k _ hk).trans
                      ((getSession_set_other _ _ k _ hk).trans hmx)
              · rw [if_neg hdone]
                exact (getSession_set_other _ _ k _ hk).trans
                  ((getSession_set_other _ _ k _ hk).trans hmx)

/-!  ## Claim C7  -/

/-- C7: the invariant "every stored session is non-empty and starts with
the fixed system instruction" is preserved by session creation
(`getContextForSession`), by compaction (`summarizeContextIfNeeded`), by a
whole turn (`handleChatMessage`, which covers user/assistant appends and
the terminal-condition reset), and by explicit deletion (`/api/reset`):
the only replacements ever stored reinstate a system message first. -/
theorem C7_system_first_invariant (m : SessionMap) (hm : SessionsWF m)
    (sAtt cAtt : Nat → GatewayStep) (jira : Except Unit String)
    (msg : String) (sid : Option String) (k : String) :
    SessionsWF (getContextForSession m k).1
    ∧ SessionsWF (summarizeContextIfNeeded sAtt m k).1
    ∧ SessionsWF (handleChatMessage sAtt cAtt jira m msg sid).1
    ∧ SessionsWF (deleteSession m k) :=
  ⟨(getContextForSession_wf m k hm).1,
   summarize_wf sAtt m k hm,
   handleChat_wf sAtt cAtt jira m msg sid hm,
   sessionsWF_delete m k hm⟩

/-- Witness for C7 at a concrete store and turn. -/
theorem C7_system_first_invariant_witness :
    SessionsWF (handleChatMessage (fun _ => .succ ⟨some "hey"⟩)
      (fun _ => .succ ⟨some "hey"⟩) (.error ())
      [("s1", [Message.mk "system" systemPrompt])] "hi" (some "s1")).1 :=
  (C7_system_first_invariant [("s1", [Message.mk "system" systemPrompt])]
    (by
      intro p hp
      rw [List.mem_singleton] at hp
      subst hp
      rfl)
    (fun _ => .succ ⟨some "hey"⟩) (fun _ => .succ ⟨some "hey"⟩)
    (.error ()) "hi" (some "s1") "s1").2.2.1

/-!  ## Claim C8  -/

/-- C8: an absent or empty session identifier resolves to the fixed key
`"default-session"`; such calls run against that one shared session (two
falsy identifiers are literally the same call) and touch no other key of
the store; a non-empty identifier is used as is. -/
theorem C8_default_session (sAtt cAtt : Nat → GatewayStep)
    (jira : Except Unit String) (m : SessionMap) (msg : String) :
    resolveSessionId none = "default-session"
    ∧ resolveSessionId (some "") = "default-session"
    ∧ (∀ s, s ≠ "" → resolveSessionId (some s) = s)
    ∧ handleChatMessage sAtt cAtt jira m msg none =
        handleChatMessage sAtt cAtt jira m msg (some "")
    ∧ (∀ k, k ≠ "default-session" →
        getSession (handleChatMessage sAtt cAtt jira m msg none).1 k =
          getSession m k) := by
  refine ⟨rfl, rfl, ?_, rfl, ?_⟩
  · intro s hs
    simp [resolveSessionId, hs]
  · intro k hk
    exact handleChat_fst_other sAtt cAtt jira m msg none k hk

/-- Witness for C8 on a concrete store. -/
theorem C8_default_session_witness :
    resolveSessionId (some "s7") = "s7"
    ∧ getSession (handleChatMessage (fun _ => .succ ⟨some "a"⟩)
        (fun _ => .succ ⟨some "b"⟩) (.error ())
        [("other", [Message.mk "system" systemPrompt])] "hi" none).1 "other" =
      some [Message.mk "system" systemPrompt] := by
  have h := C8_default_session (fun _ => .succ ⟨some "a"⟩)
    (fun _ => .succ ⟨some "b"⟩) (.error ())
    [("other", [Message.mk "system" systemPrompt])] "hi"
  refine ⟨h.2.2.1 "s7" (by decide), ?_⟩
  rw [h.2.2.2.2 "other" (by decide)]
  rfl

/-!  ## Claims C2 and C6 (compaction)  -/

/-- C2: compaction is a no-op when the non-system message count (everything
after the first message) is at most 20; above the threshold, a successful
summarization call replaces the session by exactly two messages — the
unchanged first (system) message and one assistant message whose content is
the fixed prefix `Conversation summary so far:` followed (after a newline)
by the produced summary text — regardless of the previous length. -/
theorem C2_compaction_replace (attempts : Nat → GatewayStep) (m : SessionMap)
    (sid : String) (ctx : List Message)
    (hget : getSession m sid = some ctx) :
    ((ctx.drop 1).length ≤ 20 →
      summarizeContextIfNeeded attempts m sid = (m, .ok ()))
    ∧ (∀ c0 rest resp ds, ctx = c0 :: rest → 20 < rest.length →
        callOpenAIWithRetry attempts 3 = .ok resp ds →
        summarizeContextIfNeeded attempts m sid =
          (setSession m sid [c0, Message.mk "assistant"
              ("Conversation summary so far:\n" ++
                jsOrElse resp.output_text summaryFallbackText)], .ok ())
        ∧ getSession (summarizeContextIfNeeded attempts m sid).1 sid =
            some [c0, Message.mk "assistant"
              ("Conversation summary so far:\n" ++
                jsOrElse resp.output_text summaryFallbackText)]) := by
  constructor
  · intro hle
    unfold summarizeContextIfNeeded
    rw [hget]
    simp only []
    rw [show MAX_HISTORY_MESSAGES_BEFORE_SUMMARY = 20 from rfl, if_pos hle]
  · intro c0 rest resp ds hctx hlong hcall
    subst hctx
    have hmain : summarizeContextIfNeeded attempts m sid =
        (setSession m sid [c0, Message.mk "assistant"
          ("Conversation summary so far:\n" ++
            jsOrElse resp.output_text summaryFallbackText)], .ok ()) := by
      unfold summarizeContextIfNeeded
      rw [hget]
      simp only []
      rw [if_neg (by
        simp only [List.drop_succ_cons, List.drop_zero,
          MAX_HISTORY_MESSAGES_BEFORE_SUMMARY]
        omega), hcall]
    exact ⟨hmain, by rw [hmain]; exact getSession_set_self m sid _⟩

/-- Witness for C2: a session of 1 + 21 messages compacts to exactly the
system message plus the prefixed summary. -/
theorem C2_compaction_replace_witness :
    summarizeContextIfNeeded (fun _ => .succ ⟨some "SUM"⟩)
      [("s", Message.mk "system" "sp" ::
        List.replicate 21 (Message.mk "user" "m"))] "s" =
      ([("s", [Message.mk "system" "sp", Message.mk "assistant"
          "Conversation summary so far:\nSUM"])], .ok ()) := by
  have h := (C2_compaction_replace (fun _ => .succ ⟨some "SUM"⟩)
    [("s", Message.mk "system" "sp" ::
      List.replicate 21 (Message.mk "user" "m"))] "s"
    (Message.mk "system" "sp" :: List.replicate 21 (Message.mk "user" "m"))
    rfl).2 (Message.mk "system" "sp")
    (List.replicate 21 (Message.mk "user" "m")) ⟨some "SUM"⟩ [] rfl
    (by simp) rfl
  exact h.1.trans (by rfl)

/-- C6: when compaction needs a summarization call and that call fails, the
failure propagates (also through a whole turn) and the session map is left
exactly as it was: no partial replacement. -/
theorem C6_summarize_failure (attempts : Nat → GatewayStep) (m : SessionMap)
    (sid : String) (ctx : List Message) (st : Option Nat) (ds : List Nat)
    (hget : getSession m sid = some ctx)
    (hlong : 20 < (ctx.drop 1).length)
    (hcall : callOpenAIWithRetry attempts 3 = .err st ds) :
    summarizeContextIfNeeded attempts m sid = (m, .error st)
    ∧ (sid ≠ "" → ∀ (cAtt : Nat → GatewayStep) (jira : Except Unit String)
        (msg : String),
        handleChatMessage attempts cAtt jira m msg (some sid) =
          (m, .error st)) := by
  have hmain : summarizeContextIfNeeded attempts m sid = (m, .error st) := by
    unfold summarizeContextIfNeeded
    rw [hget]
    simp only []
    rw [if_neg (by
      simp only [MAX_HISTORY_MESSAGES_BEFORE_SUMMARY]
      omega), hcall]
  refine ⟨hmain, ?_⟩
  intro hsid cAtt jira msg
  have hres : resolveSessionId (some sid) = sid := by
    simp [resolveSessionId, hsid]
  have hgc : getContextForSession m sid = (m, ctx) := by
    unfold getContextForSession
    rw [hget]
  unfold handleChatMessage
  rw [hres, hgc]
  simp only []
  rw [hmain]

/-- Witness for C6: 22 messages, all three summarization attempts
rate-limited — the turn fails with status 429 and the store is unchanged. -/
theorem C6_summarize_failure_witness :
    summarizeContextIfNeeded (fun _ => .fail (some 429))
      [("s", Message.mk "system" "sp" ::
        List.replicate 21 (Message.mk "user" "m"))] "s" =
      ([("s", Message.mk "system" "sp" ::
        List.replicate 21 (Message.mk "user" "m"))], .error (some 429)) := by
  exact (C6_summarize_failure (fun _ => .fail (some 429))
    [("s", Message.mk "system" "sp" ::
      List.replicate 21 (Message.mk "user" "m"))] "s"
    (Message.mk "system" "sp" :: List.replicate 21 (Message.mk "user" "m"))
    (some 429) [1000, 2000] rfl (by simp) rfl).1

/-!  ## Claim C5 (main-call failure leaves only the user message)  -/

/-- C5: when the main chat call fails after its retries, the error
propagates unchanged and the session holds exactly its (possibly
compacted) pre-turn content plus the one appended user message — no
assistant message. -/
theorem C5_chat_failure (sAtt cAtt : Nat → GatewayStep)
    (jira : Except Unit String) (m : SessionMap) (msg : String)
    (sid : Option String) (st : Option Nat) (ds : List Nat) (m2 : SessionMap)
    (hsum : summarizeContextIfNeeded sAtt
        (getContextForSession m (resolveSessionId sid)).1
        (resolveSessionId sid) = (m2, .ok ()))
    (hcall : callOpenAIWithRetry cAtt 3 = .err st ds) :
    handleChatMessage sAtt cAtt jira m msg sid =
      (setSession (getContextForSession m2 (resolveSessionId sid)).1
        (resolveSessionId sid)
        ((getContextForSession m2 (resolveSessionId sid)).2 ++
          [Message.mk "user" msg]), .error st)
    ∧ getSession (handleChatMessage sAtt cAtt jira m msg sid).1
        (resolveSessionId sid) =
      some ((getContextForSession m2 (resolveSessionId sid)).2 ++
        [Message.mk "user" msg]) := by
  have hmain : handleChatMessage sAtt cAtt jira m msg sid =
      (setSession (getContextForSession m2 (resolveSessionId sid)).1
        (resolveSessionId sid)
        ((getContextForSession m2 (resolveSessionId sid)).2 ++
          [Message.mk "user" msg]), .error st) := by
    unfold handleChatMessage
    rw [hsum]
    simp only []
    rw [hcall]
  exact ⟨hmain, by rw [hmain]; exact getSession_set_self _ _ _⟩

/-- Witness for C5: a fresh session, all three chat attempts rate-limited —
the turn raises status 429 and the session holds the system message plus
the user message only. -/
theorem C5_chat_failure_witness :
    (handleChatMessage (fun _ => .succ ⟨some "x"⟩)
        (fun _ => .fail (some 429)) (.error ()) [] "hello" (some "s1")).2 =
      .error (some 429)
    ∧ getSession (handleChatMessage (fun _ => .succ ⟨some "x"⟩)
        (fun _ => .fail (some 429)) (.error ()) [] "hello" (some "s1")).1
        "s1" =
      some [Message.mk "system" systemPrompt, Message.mk "user" "hello"] := by
  have h := C5_chat_failure (fun _ => .succ ⟨some "x"⟩)
    (fun _ => .fail (some 429)) (.error ()) [] "hello" (some "s1")
    (some 429) [1000, 2000]
    [("s1", [Message.mk "system" systemPrompt])] rfl rfl
  constructor
  · rw [h.1]
  · exact h.2.trans rfl

/-!  ## Null extraction on tag-free text  -/

theorem getTagField_noLt (tag : String) (s : String)
    (hs : ∀ c ∈ s.data, lc c ≠ '<') : getTagField tag s = none := by
  unfold getTagField extractInner
  rw [ciSplit_eq_none_head ("<" ++ tag ++ ">").data s.data '<' rfl
    (by intro c hc; rw [lc_lt_eq]; exact hs c hc)]
  rfl

theorem extractTicketFields_noLt (s : String)
    (hs : ∀ c ∈ s.data, lc c ≠ '<') :
    extractTicketFields s = ⟨none, none, none⟩ := by
  unfold extractTicketFields
  rw [getTagField_noLt "su" s hs, getTagField_noLt "de" s hs,
    getTagField_noLt "ca" s hs]

theorem isOrderCompleted_noLb (s : String)
    (hs : ∀ c ∈ s.data, lc c ≠ '[') : isOrderCompleted s = false := by
  unfold isOrderCompleted ciContains
  rw [ciSplit_eq_none_head orderMarker s.data '[' rfl
    (by intro c hc; rw [lc_lb_eq]; exact hs c hc)]
  rfl

/-!  ## Extraction over the canonical ticket reply  -/

theorem extractTicketFields_ticketReply (P X Y Z : String)
    (hP : TagFree P) (hX : TagFree X) (hY : TagFree Y) (hZ : TagFree Z) :
    extractTicketFields (ticketReply P X Y Z) =
      ⟨some (jsTrimStr X), some (jsTrimStr Y), some (jsTrimStr Z)⟩ := by
  have hP' : ∀ c ∈ P.data, lc c ≠ '<' := fun c hc => (hP c hc).1
  have hX' : ∀ c ∈ X.data, lc c ≠ '<' := fun c hc => (hX c hc).1
  have hY' : ∀ c ∈ Y.data, lc c ≠ '<' := fun c hc => (hY c hc).1
  have hZ' : ∀ c ∈ Z.data, lc c ≠ '<' := fun c hc => (hZ c hc).1
  unfold extractTicketFields getTagField
  rw [ticketReply_data,
    show (("<" ++ "su" ++ ">" : String)).data = suOpenL from rfl,
    show (("</" ++ "su" ++ ">" : String)).data = suCloseL from rfl,
    show (("<" ++ "de" ++ ">" : String)).data = deOpenL from rfl,
    show (("</" ++ "de" ++ ">" : String)).data = deCloseL from rfl,
    show (("<" ++ "ca" ++ ">" : String)).data = caOpenL from rfl,
    show (("</" ++ "ca" ++ ">" : String)).data = caCloseL from rfl,
    extract_su_shape P.data X.data _ hP' hX',
    extract_de_shape P.data X.data Y.data _ hP' hX' hY',
    extract_ca_shape P.data X.data Y.data Z.data _ hP' hX' hY' hZ']
  rfl

/-!  ## Claim C3  -/

/-- Counterexample to C3 as stated: a reply ending in the marker
immediately preceded by a well-formed `<su>…</su><de>…</de><ca>…</ca>`
block (with no `<ticket>` wrapper, exactly as the claim writes it) is
terminal and extracts the fields, but the visible reply still contains the
entire tag block, because `stripTicketBlock` only removes a complete
`<ticket>…</ticket>` element; through the turn handler the user is shown
the tags. -/
theorem C3_counterexample :
    isOrderCompleted "Done! <su>A</su><de>B</de><ca>C</ca>[[ORDER_COMPLETED]]" = true
    ∧ extractTicketFields
        "Done! <su>A</su><de>B</de><ca>C</ca>[[ORDER_COMPLETED]]" =
        ⟨some "A", some "B", some "C"⟩
    ∧ ciContains "<su>A</su><de>B</de><ca>C</ca>".data
        (stripTicketBlock (stripOrderCompletedTag
          "Done! <su>A</su><de>B</de><ca>C</ca>[[ORDER_COMPLETED]]")).data = true
    ∧ (handleChatMessage (fun _ => .succ ⟨some "x"⟩)
        (fun _ => .succ
          ⟨some "Done! <su>A</su><de>B</de><ca>C</ca>[[ORDER_COMPLETED]]"⟩)
        (.error ()) [] "hi" (some "s1")).2 =
      .ok ⟨"Done! <su>A</su><de>B</de><ca>C</ca>", true, none⟩ :=
  ⟨by decide, by decide, by decide, by rfl⟩

/-- C3 (amended): the same property holds once the tag block is wrapped in
the complete `<ticket>…</ticket>` element the system prompt prescribes: for
a reply ending in the marker immediately preceded by a well-formed
`<ticket><su>X</su><de>Y</de><ca>Z</ca></ticket>` block (leading text and
fields free of `<`/`[`, fields trimmed), the turn is terminal, the fields
are exactly X, Y, Z, and the visible reply — the trimmed leading text —
contains neither tag material nor the marker; `handleChatMessage` hands the
caller exactly that reply with `orderCompleted = true`. -/
theorem C3_terminal_ticket (P X Y Z : String)
    (hP : TagFree P) (hX : TagFree X) (hY : TagFree Y) (hZ : TagFree Z)
    (htX : jsTrimStr X = X) (htY : jsTrimStr Y = Y) (htZ : jsTrimStr Z = Z) :
    isOrderCompleted (ticketReply P X Y Z) = true
    ∧ extractTicketFields (ticketReply P X Y Z) = ⟨some X, some Y, some Z⟩
    ∧ stripTicketBlock (stripOrderCompletedTag (ticketReply P X Y Z)) =
        jsTrimStr P
    ∧ extractTicketFields
        (stripTicketBlock (stripOrderCompletedTag (ticketReply P X Y Z))) =
        ⟨none, none, none⟩
    ∧ isOrderCompleted
        (stripTicketBlock (stripOrderCompletedTag (ticketReply P X Y Z))) =
        false
    ∧ ∀ (sAtt cAtt : Nat → GatewayStep) (m m2 : SessionMap) (msg : String)
        (sid : Option String) (key : String) (ds : List Nat),
        summarizeContextIfNeeded sAtt
          (getContextForSession m (resolveSessionId sid)).1
          (resolveSessionId sid) = (m2, .ok ()) →
        callOpenAIWithRetry cAtt 3 = .ok ⟨some (ticketReply P X Y Z)⟩ ds →
        (handleChatMessage sAtt cAtt (.ok key) m msg sid).2 =
          .ok ⟨jsTrimStr P, true, some key⟩ := by
  have hassoc : (ticketReply P X Y Z).data =
      (P.data ++ blockNoMarker X.data Y.data Z.data) ++ markerU := by
    rw [ticketReply_data]
    simp [blockNoMarker, List.append_assoc]
  have h1 : isOrderCompleted (ticketReply P X Y Z) = true := by
    unfold isOrderCompleted
    rw [hassoc]
    exact ciContains_append_left _ _ _
      (ciContains_variant _ _ (by decide) (by decide))
  have h2 : extractTicketFields (ticketReply P X Y Z) =
      ⟨some X, some Y, some Z⟩ := by
    rw [extractTicketFields_ticketReply P X Y Z hP hX hY hZ, htX, htY, htZ]
  have h3 : stripTicketBlock (stripOrderCompletedTag (ticketReply P X Y Z)) =
      jsTrimStr P := sanitize_ticketReply P X Y Z hP hX hY hZ
  have h4 : extractTicketFields
      (stripTicketBlock (stripOrderCompletedTag (ticketReply P X Y Z))) =
      ⟨none, none, none⟩ := by
    rw [h3]
    exact extractTicketFields_noLt _ (fun c hc => (hP c (mem_jsTrim hc)).1)
  have h5 : isOrderCompleted
      (stripTicketBlock (stripOrderCompletedTag (ticketReply P X Y Z))) =
      false := by
    rw [h3]
    exact isOrderCompleted_noLb _ (fun c hc => (hP c (mem_jsTrim hc)).2)
  refine ⟨h1, h2, h3, h4, h5, ?_⟩
  intro sAtt cAtt m m2 msg sid key ds hsum hcall
  have hne : ticketReply P X Y Z ≠ "" := by
    intro hh
    have hd := congrArg String.data hh
    rw [hassoc] at hd
    exact append_ne_nil_right _ _ (by decide) hd
  have hOr : jsOrElse (some (ticketReply P X Y Z))
      "Sorry, I had trouble answering that." = ticketReply P X Y Z := by
    unfold jsOrElse
    simp only []
    rw [if_neg hne]
  unfold handleChatMessage
  rw [hsum]
  simp only []
  rw [hcall]
  simp only []
  rw [hOr, if_pos h1]
  simp only []
  rw [h3]

/-- Witness for the amended C3 at a concrete well-formed reply. -/
theorem C3_terminal_ticket_witness :
    isOrderCompleted
      (ticketReply "Ok! " "Printer broken" "It smokes" "Hardware") = true
    ∧ extractTicketFields
        (ticketReply "Ok! " "Printer broken" "It smokes" "Hardware") =
        ⟨some "Printer broken", some "It smokes", some "Hardware"⟩
    ∧ stripTicketBlock (stripOrderCompletedTag
        (ticketReply "Ok! " "Printer broken" "It smokes" "Hardware")) =
        "Ok!" := by
  have h := C3_terminal_ticket "Ok! " "Printer broken" "It smokes" "Hardware"
    (by decide) (by decide) (by decide) (by decide)
    (by decide) (by decide) (by decide)
  exact ⟨h.1, h.2.1, h.2.2.1.trans (by decide)⟩

/-!  ## Claim C4  -/

/-- Counterexample to C4 as stated: sanitization does not remove a bare
`<su>…</su>` pair (only a complete `<ticket>…</ticket>` element), so
extraction after sanitization is not the all-null constant on every text. -/
theorem C4_counterexample :
    extractTicketFields
      (stripTicketBlock (stripOrderCompletedTag "<su>hello</su>")) =
      ⟨some "hello", none, none⟩
    ∧ extractTicketFields
        (stripTicketBlock (stripOrderCompletedTag "<su>hello</su>")) ≠
      ⟨none, none, none⟩ :=
  ⟨by decide, by decide⟩

/-- C4 (amended): on well-formed backend output — where every tag pair
lies inside the single complete `<ticket>…</ticket>` block that precedes
the terminal marker — running extraction on the sanitized text yields
summary, description and category all null, because sanitization removed
every region extraction could match. -/
theorem C4_sanitized_extraction_null (P X Y Z : String)
    (hP : TagFree P) (hX : TagFree X) (hY : TagFree Y) (hZ : TagFree Z) :
    extractTicketFields
      (stripTicketBlock (stripOrderCompletedTag (ticketReply P X Y Z))) =
      ⟨none, none, none⟩ := by
  rw [sanitize_ticketReply P X Y Z hP hX hY hZ]
  exact extractTicketFields_noLt _ (fun c hc => (hP c (mem_jsTrim hc)).1)

/-- Witness for the amended C4. -/
theorem C4_sanitized_extraction_null_witness :
    extractTicketFields (stripTicketBlock (stripOrderCompletedTag
      (ticketReply "Hi there. " "Broken VPN" "No access since Monday"
        "Network"))) = ⟨none, none, none⟩ :=
  C4_sanitized_extraction_null "Hi there. " "Broken VPN"
    "No access since Monday" "Network"
    (by decide) (by decide) (by decide) (by decide)

/-!  ## Claim C9  -/

/-- C9: for a text containing a tag pair (first occurrence, matched
case-insensitively — `O` and `C` are arbitrary casings of the open and
close tag), extraction returns the inner content with surrounding
whitespace removed, not the raw inner content. -/
theorem C9_fields_trimmed (A O X C B : List Char)
    (hA : ∀ c ∈ A, lc c ≠ '<') (hX : ∀ c ∈ X, lc c ≠ '<') :
    ((O.map lc = suOpenL.map lc ∧ C.map lc = suCloseL.map lc) →
      (extractTicketFields ⟨A ++ (O ++ (X ++ (C ++ B)))⟩).summary =
        some ⟨jsTrim X⟩)
    ∧ ((O.map lc = deOpenL.map lc ∧ C.map lc = deCloseL.map lc) →
      (extractTicketFields ⟨A ++ (O ++ (X ++ (C ++ B)))⟩).description =
        some ⟨jsTrim X⟩)
    ∧ ((O.map lc = caOpenL.map lc ∧ C.map lc = caCloseL.map lc) →
      (extractTicketFields ⟨A ++ (O ++ (X ++ (C ++ B)))⟩).category =
        some ⟨jsTrim X⟩) := by
  refine ⟨?_, ?_, ?_⟩ <;> rintro ⟨hO, hC⟩
  · show (getTagField "su" ⟨A ++ (O ++ (X ++ (C ++ B)))⟩) = some ⟨jsTrim X⟩
    unfold getTagField
    rw [data_mk,
      extractInner_shape ("<" ++ "su" ++ ">").data ("</" ++ "su" ++ ">").data
        O C A X B rfl rfl hO hC (by decide) (by decide) hA hX]
    rfl
  · show (getTagField "de" ⟨A ++ (O ++ (X ++ (C ++ B)))⟩) = some ⟨jsTrim X⟩
    unfold getTagField
    rw [data_mk,
      extractInner_shape ("<" ++ "de" ++ ">").data ("</" ++ "de" ++ ">").data
        O C A X B rfl rfl hO hC (by decide) (by decide) hA hX]
    rfl
  · show (getTagField "ca" ⟨A ++ (O ++ (X ++ (C ++ B)))⟩) = some ⟨jsTrim X⟩
    unfold getTagField
    rw [data_mk,
      extractInner_shape ("<" ++ "ca" ++ ">").data ("</" ++ "ca" ++ ">").data
        O C A X B rfl rfl hO hC (by decide) (by decide) hA hX]
    rfl

/-- Witness for C9: mixed-case tags, padded inner text, trimmed result. -/
theorem C9_fields_trimmed_witness :
    (extractTicketFields "x: <SU>  Hi  </Su>tail").summary = some "Hi" := by
  have h := (C9_fields_trimmed "x: ".data "<SU>".data "  Hi  ".data
    "</Su>".data "tail".data (by decide) (by decide)).1
    ⟨by decide, by decide⟩
  have h2 : (⟨"x: ".data ++ ("<SU>".data ++ ("  Hi  ".data ++
      ("</Su>".data ++ "tail".data)))⟩ : String) =
      "x: <SU>  Hi  </Su>tail" := by decide
  have h3 : (⟨jsTrim "  Hi  ".data⟩ : String) = "Hi" := by decide
  rw [h2, h3] at h
  exact h

/-!  ## Claim C10  -/

/-- Counterexample to C10's final consequence as stated: a successful
gateway call CAN yield an empty stored assistant message — when the
non-empty raw reply consists of nothing but the terminal marker, stripping
leaves the empty string, which is stored and returned. -/
theorem C10_counterexample :
    (handleChatMessage (fun _ => .succ ⟨some "x"⟩)
        (fun _ => .succ ⟨some "[[ORDER_COMPLETED]]"⟩) (.error ()) [] "hi"
        (some "s1")).2 = .ok ⟨"", true, none⟩
    ∧ getSession (handleChatMessage (fun _ => .succ ⟨some "x"⟩)
        (fun _ => .succ ⟨some "[[ORDER_COMPLETED]]"⟩) (.error ()) [] "hi"
        (some "s1")).1 "s1" =
      some [Message.mk "system" systemPrompt, Message.mk "user" "hi",
        Message.mk "assistant" ""] :=
  ⟨by rfl, by rfl⟩

/-- C10 (amended): when a backend call succeeds with empty or missing
output text, the turn handler substitutes the fixed fallback reply (and
the compactor substitutes its fixed fallback summary line) instead of
raising an error or storing an empty message, and the raw assistant text
of a successful call is never empty; the stored *visible* assistant
message, however, can still be empty when a non-empty raw reply consists
only of marker/tag material. -/
theorem C10_fallback_substitution (sAtt cAtt : Nat → GatewayStep)
    (jira : Except Unit String) (m m2 : SessionMap) (msg : String)
    (sid : Option String) (resp : Response) (ds : List Nat)
    (hempty : resp.output_text = none ∨ resp.output_text = some "")
    (hsum : summarizeContextIfNeeded sAtt
        (getContextForSession m (resolveSessionId sid)).1
        (resolveSessionId sid) = (m2, .ok ()))
    (hcall : callOpenAIWithRetry cAtt 3 = .ok resp ds) :
    (handleChatMessage sAtt cAtt jira m msg sid).2 =
      .ok ⟨"Sorry, I had trouble answering that.", false, none⟩
    ∧ getSession (handleChatMessage sAtt cAtt jira m msg sid).1
        (resolveSessionId sid) =
      some ((getContextForSession m2 (resolveSessionId sid)).2 ++
        [Message.mk "user" msg] ++
        [Message.mk "assistant" "Sorry, I had trouble answering that."])
    ∧ (∀ r : Response,
        jsOrElse r.output_text "Sorry, I had trouble answering that." ≠ "")
    ∧ (∀ (a2 : Nat → GatewayStep) (m3 : SessionMap) (sid2 : String)
        (c0 : Message) (rest : List Message) (r2 : Response) (ds2 : List Nat),
        getSession m3 sid2 = some (c0 :: rest) → 20 < rest.length →
        (r2.output_text = none ∨ r2.output_text = some "") →
        callOpenAIWithRetry a2 3 = .ok r2 ds2 →
        getSession (summarizeContextIfNeeded a2 m3 sid2).1 sid2 =
          some [c0, Message.mk "assistant"
            ("Conversation summary so far:\n" ++ summaryFallbackText)]) := by
  have hOr : jsOrElse resp.output_text
      "Sorry, I had trouble answering that." =
      "Sorry, I had trouble answering that." := by
    rcases hempty with h | h <;> rw [h] <;> rfl
  have hclean : stripTicketBlock (stripOrderCompletedTag
      "Sorry, I had trouble answering that.") =
      "Sorry, I had trouble answering that." := by decide
  have hdone : isOrderCompleted "Sorry, I had trouble answering that." =
      false := by decide
  have hmain : handleChatMessage sAtt cAtt jira m msg sid =
      (setSession (setSession (getContextForSession m2 (resolveSessionId sid)).1
          (resolveSessionId sid)
          ((getContextForSession m2 (resolveSessionId sid)).2 ++
            [Message.mk "user" msg]))
        (resolveSessionId sid)
        ((getContextForSession m2 (resolveSessionId sid)).2 ++
          [Message.mk "user" msg] ++
          [Message.mk "assistant" "Sorry, I had trouble answering that."]),
       .ok ⟨"Sorry, I had trouble answering that.", false, none⟩) := by
    unfold handleChatMessage
    rw [hsum]
    simp only []
    rw [hcall]
    simp only []
    rw [hOr, hclean, if_neg (by rw [hdone]; simp)]
  refine ⟨by rw [hmain], by rw [hmain]; exact getSession_set_self _ _ _,
    ?_, ?_⟩
  · intro r
    unfold jsOrElse
    cases hr : r.output_text with
    | none => simp only []; decide
    | some t =>
        simp only []
        by_cases ht : t = ""
        · rw [if_pos ht]; decide
        · rw [if_neg ht]; exact ht
  · intro a2 m3 sid2 c0 rest r2 ds2 hget2 hlong2 hempty2 hcall2
    have hOr2 : jsOrElse r2.output_text summaryFallbackText =
        summaryFallbackText := by
      rcases hempty2 with h | h <;> rw [h] <;> rfl
    have hm2 : summarizeContextIfNeeded a2 m3 sid2 =
        (setSession m3 sid2 [c0, Message.mk "assistant"
          ("Conversation summary so far:\n" ++ summaryFallbackText)],
         .ok ()) := by
      unfold summarizeContextIfNeeded
      rw [hget2]
      simp only []
      rw [if_neg (by
        simp only [List.drop_succ_cons, List.drop_zero,
          MAX_HISTORY_MESSAGES_BEFORE_SUMMARY]
        omega), hcall2]
      simp only []
      rw [hOr2]
    rw [hm2]
    exact getSession_set_self _ _ _

/-- Witness for the amended C10: a reply with missing output text yields
the stored fallback reply. -/
theorem C10_fallback_substitution_witness :
    (handleChatMessage (fun _ => .succ ⟨some "x"⟩) (fun _ => .succ ⟨none⟩)
        (.error ()) [] "hi" (some "s1")).2 =
      .ok ⟨"Sorry, I had trouble answering that.", false, none⟩
    ∧ getSession (handleChatMessage (fun _ => .succ ⟨some "x"⟩)
        (fun _ => .succ ⟨none⟩) (.error ()) [] "hi" (some "s1")).1 "s1" =
      some [Message.mk "system" systemPrompt, Message.mk "user" "hi",
        Message.mk "assistant" "Sorry, I had trouble answering that."] := by
  have h := C10_fallback_substitution (fun _ => .succ ⟨some "x"⟩)
    (fun _ => .succ ⟨none⟩) (.error ()) []
    [("s1", [Message.mk "system" systemPrompt])] "hi" (some "s1") ⟨none⟩ []
    (Or.inl rfl) rfl rfl
  exact ⟨h.1, h.2.1.trans rfl⟩

end ServiceBot
